import Mathlib

/-!
Verification development for the browser-tools clone capture pipeline.

The definitions below are a shallow embedding of the TypeScript sources:
  * `src/browser-tools-server/clone/session-service.ts` (snapshot chunk assembler),
  * `src/browser-tools-server/clone/component-mapper.ts` (component classifier),
  * `src/browser-tools-server/clone/style-compiler.ts` (style token compiler),
  * the asset resolver module (`processAssetPayload`).

JavaScript numbers holding chunk counters are modelled as `Int`, progress
fractions as `ℚ`, file bytes as `List Char` (one character per byte), and the
in-memory `Map` registries as functions / association lists.  External
facilities (the WHATWG URL resolver, `fetch`, SHA-256) are passed in as
function parameters, since they are libraries the repository calls, not code
of the repository.
-/

namespace CloneSpec

/-- Payload types of `CloneSnapshotPayloadType` in `clone-types.ts`. -/
inductive PayloadType where
  | dom | styles | assets | interactions | animations | responsive
deriving DecidableEq

/-- Payload encodings of `CloneSnapshotPayloadFormat` (`"json" | "base64"`). -/
inductive PayloadFormat where
  | json | base64
deriving DecidableEq

/-- Session status values of `CloneSessionStatus`. -/
inductive SessionStatus where
  | pending | initializing | capturing | processing | completed | failed
deriving DecidableEq

/-- Progress phases of `CloneProgressPhase`. -/
inductive ProgressPhase where
  | initializing | capturingDom | capturingStyles | capturingAssets
  | capturingInteractions | capturingAnimations | capturingResponsiveStates
  | processing | generating | completed | failed
deriving DecidableEq

/-- One snapshot chunk (`CloneSnapshotChunk`).  `payloadType := none` models a
chunk whose `payloadType` field is absent or `undefined` (the JS code applies
`chunk.payloadType || "dom"`).  `sessionId`/`chunkId` are omitted: the session
id is passed to the assembler separately and `chunkId` is never read. -/
structure Chunk where
  sequence : Int
  totalChunks : Int
  payloadType : Option PayloadType
  payloadFormat : PayloadFormat
  payload : String
deriving DecidableEq

/-- Per-(session, payload type) assembly state (`SnapshotState` in
`session-service.ts`).  `writeStream = some bytes` models an open write stream
together with the bytes already written to it; `buffers` is the in-memory
chunk list used for non-`dom` payload types. -/
structure SnapshotState where
  payloadType : PayloadType
  writeStream : Option (List Char)
  expectedChunks : Int
  receivedChunks : Int
  filePath : String
  buffers : Option (List String)
deriving DecidableEq

/-- Progress events (`CloneProgressEvent`). -/
structure ProgressEvent where
  sessionId : String
  phase : ProgressPhase
  progress : ℚ
  message : String
  timestamp : String
deriving DecidableEq

/-- Error thrown by `appendSnapshotChunk` on a sequence mismatch; the thrown
`Error`'s text names the session and the expected and received numbers. -/
inductive ChunkError where
  | unexpectedSequence (sessionId : String) (expected received : Int)
deriving DecidableEq

/-- Message of the thrown `Error` (template string in `appendSnapshotChunk`). -/
def ChunkError.message : ChunkError → String
  | .unexpectedSequence sid e r =>
      "Unexpected chunk sequence for session " ++ sid ++ ": expected " ++
        toString e ++ ", received " ++ toString r

/-- The nested registry `snapshotStates : Map<string, Map<string, SnapshotState>>`,
modelled as a lookup function.  (Deleting an inner map that became empty is
observationally the identity under this model.) -/
def SnapMap : Type := String → PayloadType → Option SnapshotState

/-- Point update of the registry. -/
def setSnap (m : SnapMap) (sid : String) (pt : PayloadType) (v : Option SnapshotState) :
    SnapMap :=
  fun s t => if s = sid ∧ t = pt then v else m s t

/-- Rendering of a payload type by a JS template string. -/
def payloadTypeName : PayloadType → String
  | .dom => "dom"
  | .styles => "styles"
  | .assets => "assets"
  | .interactions => "interactions"
  | .animations => "animations"
  | .responsive => "responsive"

/-- Translation of `resolveProgressPhase`: note the `switch` has no case for
`animations`, which therefore falls through to `default` and yields no phase. -/
def resolveProgressPhase : PayloadType → Option ProgressPhase
  | .dom => some .capturingDom
  | .styles => some .capturingStyles
  | .assets => some .capturingAssets
  | .interactions => some .capturingInteractions
  | .responsive => some .capturingResponsiveStates
  | .animations => none

/-- Translation of `resolveSnapshotFilePath` (`path.join` modelled as `"/"`
concatenation; the `default` arm of the `switch` is unreachable for the closed
union of payload types). -/
def resolveSnapshotFilePath (workspacePath : String) (pt : PayloadType) : String :=
  workspacePath ++ "/" ++
    (match pt with
     | .dom => "dom-snapshot.json"
     | .styles => "styles.json"
     | .assets => "assets.json"
     | .interactions => "interactions.json"
     | .responsive => "responsive.json"
     | .animations => "animations.json")

/-- Value of one base64 alphabet character (Node ignores characters outside
the alphabet, including padding `=`). -/
def base64Val (c : Char) : Option Nat :=
  if 'A' ≤ c ∧ c ≤ 'Z' then some (c.toNat - 65)
  else if 'a' ≤ c ∧ c ≤ 'z' then some (c.toNat - 97 + 26)
  else if '0' ≤ c ∧ c ≤ '9' then some (c.toNat - 48 + 52)
  else if c = '+' then some 62
  else if c = '/' then some 63
  else none

/-- Decodes a stream of 6-bit values into bytes, 4 values to 3 bytes, with
Node's handling of a trailing partial group (3 values give 2 bytes, 2 values
give 1 byte, a single value is dropped). -/
def base64Groups : List Nat → List Nat
  | a :: b :: c :: d :: rest =>
      (a * 4 + b / 16) :: ((b % 16) * 16 + c / 4) :: ((c % 4) * 64 + d) :: base64Groups rest
  | [a, b, c] => [a * 4 + b / 16, (b % 16) * 16 + c / 4]
  | [a, b] => [a * 4 + b / 16]
  | _ => []

/-- Base64 decoding as performed by `Buffer.from(payload, "base64")`; the
decoded bytes are represented as characters. -/
def base64Decode (s : String) : List Char :=
  (base64Groups (s.data.filterMap base64Val)).map Char.ofNat

/-- Bytes produced by `writeStream.write(chunk.payload, encoding)` where the
encoding is `"base64"` when `chunk.payloadFormat === "base64"` and `"utf8"`
otherwise (a utf8 write of the payload string is modelled as its characters). -/
def decodeChunkPayload : PayloadFormat → String → List Char
  | .base64, p => base64Decode p
  | .json, p => p.data

/-- Content handed to the filesystem when a payload type finalizes. -/
inductive FileData where
  /-- Closing the `dom` write stream: the file holds the streamed bytes. -/
  | streamed (content : List Char)
  /-- For pass-through buffered types, `fs.promises.writeFile(filePath, rawPayload, "utf8")`. -/
  | rawText (content : String)
  /-- The assembled `styles` text enters the stylesheet normalization pipeline
  (`dedupeStylesheets`, modelled separately below). -/
  | stylesProcessed (raw : String)
  /-- The assembled `assets` text enters the asset pipeline
  (`processAssetPayload`, modelled separately below). -/
  | assetsProcessed (raw : String)
deriving DecidableEq

/-- Translation of `persistBufferedSnapshot`: the `styles` and `assets` types
are parsed and normalized (their pipelines are modelled by `dedupeStylesheets`
and the asset resolver below; parse failures fall back to the raw text inside
those pipelines), every other buffered type is written as received. -/
def persistBufferedSnapshot (pt : PayloadType) (rawPayload : String) : FileData :=
  match pt with
  | .styles => .stylesProcessed rawPayload
  | .assets => .assetsProcessed rawPayload
  | _ => .rawText rawPayload

/-- Translation of `finalizeSnapshot`: close the stream or join and persist the
buffers, then delete the state from the registry.  Returns the new registry and
the file write performed. -/
def finalizeSnapshot (snaps : SnapMap) (sessionId : String) (pt : PayloadType)
    (state : SnapshotState) : SnapMap × List (String × FileData) :=
  let write :=
    match state.writeStream with
    | some content => [(state.filePath, FileData.streamed content)]
    | none =>
        match state.buffers with
        | some bs => [(state.filePath, persistBufferedSnapshot pt (String.join bs))]
        | none => []
  (setSnap snaps sessionId pt none, write)

/-- Progress events emitted after a chunk is accepted (`recordProgress` is
called only when `resolveProgressPhase` yields a phase). -/
def progressEvents (sid : String) (pt : PayloadType) (received expected : Int)
    (now : String) : List ProgressEvent :=
  let progress : ℚ :=
    if expected > 0 then min ((received : ℚ) / (expected : ℚ)) 1 else 1
  match resolveProgressPhase pt with
  | some phase =>
      [{ sessionId := sid, phase := phase, progress := progress
         message := "Captured " ++ toString received ++ "/" ++ toString expected ++
           " " ++ payloadTypeName pt ++ " chunks"
         timestamp := now }]
  | none => []

/-- Outcome of one `appendSnapshotChunk` call.  `error = some e` corresponds to
the thrown sequence error; because the JS code mutates the `SnapshotState`
object in place before the throw, the (already updated) registry is part of the
result in both cases.  `status` is the session record's status afterwards,
`writes` the file writes performed by finalization. -/
structure AppendResult where
  error : Option ChunkError
  snaps : SnapMap
  status : SessionStatus
  events : List ProgressEvent
  writes : List (String × FileData)

/-- State created on first contact with a (session, payload type) pair: a
write stream (opened with flag `"w"`, so no bytes written yet) for `dom`, an
empty in-memory buffer list for every other payload type. -/
def initialSnapshotState (workspacePath : String) (pt : PayloadType) (total : Int) :
    SnapshotState :=
  { payloadType := pt
    writeStream := if pt = .dom then some [] else none
    expectedChunks := total
    receivedChunks := 0
    filePath := resolveSnapshotFilePath workspacePath pt
    buffers := if pt = .dom then none else some [] }

/-- The `let state = sessionStates.get(payloadType)` lookup together with the
lazy creation branch of `appendSnapshotChunk`. -/
def lookupOrInit (snaps : SnapMap) (sid : String) (pt : PayloadType) (ws : String)
    (total : Int) : SnapshotState :=
  match snaps sid pt with
  | some s => s
  | none => initialSnapshotState ws pt total

/-- The accumulation step of `appendSnapshotChunk`: stream-write the decoded
payload when a write stream exists (`dom`), otherwise push the raw payload
string onto the buffer list. -/
def accumulateChunk (st : SnapshotState) (chunk : Chunk) : SnapshotState :=
  match st.writeStream with
  | some written =>
      { st with
        writeStream := some (written ++ decodeChunkPayload chunk.payloadFormat chunk.payload) }
  | none =>
      match st.buffers with
      | some bs => { st with buffers := some (bs ++ [chunk.payload]) }
      | none => st

/-- Translation of `appendSnapshotChunk` in `session-service.ts`.  Faithfully
in source order: resolve the payload type (defaulting to `dom`), look up or
lazily create the state, overwrite `expectedChunks` with the chunk's
`totalChunks`, reject on a sequence mismatch (the mutated state stays in the
registry), otherwise accumulate, bump `receivedChunks`, set the session status
to `capturing`, emit the progress event, and finalize once
`receivedChunks >= expectedChunks`. -/
def appendSnapshotChunk (snaps : SnapMap) (sessionId workspacePath : String)
    (status : SessionStatus) (now : String) (chunk : Chunk) : AppendResult :=
  let payloadType := chunk.payloadType.getD .dom
  let state1 : SnapshotState :=
    { lookupOrInit snaps sessionId payloadType workspacePath chunk.totalChunks with
      expectedChunks := chunk.totalChunks }
  if chunk.sequence ≠ state1.receivedChunks then
    { error := some (.unexpectedSequence sessionId state1.receivedChunks chunk.sequence)
      snaps := setSnap snaps sessionId payloadType (some state1)
      status := status
      events := []
      writes := [] }
  else
    let state2 : SnapshotState := accumulateChunk state1 chunk
    let state3 : SnapshotState := { state2 with receivedChunks := state2.receivedChunks + 1 }
    let events := progressEvents sessionId payloadType state3.receivedChunks
      state3.expectedChunks now
    if state3.receivedChunks ≥ state3.expectedChunks then
      let fin := finalizeSnapshot (setSnap snaps sessionId payloadType (some state3))
        sessionId payloadType state3
      { error := none, snaps := fin.1, status := .capturing, events := events
        writes := fin.2 }
    else
      { error := none, snaps := setSnap snaps sessionId payloadType (some state3)
        status := .capturing, events := events, writes := [] }

/-- Accumulation leaves the chunk counters, file path and payload type alone. -/
@[simp] theorem accumulateChunk_receivedChunks (st : SnapshotState) (c : Chunk) :
    (accumulateChunk st c).receivedChunks = st.receivedChunks := by
  unfold accumulateChunk
  rcases st.writeStream with _ | w
  · rcases st.buffers with _ | bs <;> rfl
  · rfl

/-- Accumulation leaves `expectedChunks` alone. -/
@[simp] theorem accumulateChunk_expectedChunks (st : SnapshotState) (c : Chunk) :
    (accumulateChunk st c).expectedChunks = st.expectedChunks := by
  unfold accumulateChunk
  rcases st.writeStream with _ | w
  · rcases st.buffers with _ | bs <;> rfl
  · rfl

/-- Accumulation leaves `filePath` alone. -/
@[simp] theorem accumulateChunk_filePath (st : SnapshotState) (c : Chunk) :
    (accumulateChunk st c).filePath = st.filePath := by
  unfold accumulateChunk
  rcases st.writeStream with _ | w
  · rcases st.buffers with _ | bs <;> rfl
  · rfl

/-- Accumulation leaves `payloadType` alone. -/
@[simp] theorem accumulateChunk_payloadType (st : SnapshotState) (c : Chunk) :
    (accumulateChunk st c).payloadType = st.payloadType := by
  unfold accumulateChunk
  rcases st.writeStream with _ | w
  · rcases st.buffers with _ | bs <;> rfl
  · rfl

/-- Branch equation for `appendSnapshotChunk`: sequence mismatch. -/
theorem appendSnapshotChunk_seq_err (snaps : SnapMap) (sid ws : String)
    (status : SessionStatus) (now : String) (chunk : Chunk)
    (h : chunk.sequence
      ≠ (lookupOrInit snaps sid (chunk.payloadType.getD .dom) ws chunk.totalChunks).receivedChunks) :
    appendSnapshotChunk snaps sid ws status now chunk =
      { error := some (.unexpectedSequence sid
          (lookupOrInit snaps sid (chunk.payloadType.getD .dom) ws chunk.totalChunks).receivedChunks
          chunk.sequence)
        snaps := setSnap snaps sid (chunk.payloadType.getD .dom)
          (some { lookupOrInit snaps sid (chunk.payloadType.getD .dom) ws chunk.totalChunks with
                  expectedChunks := chunk.totalChunks })
        status := status, events := [], writes := [] } := by
  simp [appendSnapshotChunk, h]

/-- Branch equation for `appendSnapshotChunk`: accepted chunk that does not
complete the payload. -/
theorem appendSnapshotChunk_ok_cont (snaps : SnapMap) (sid ws : String)
    (status : SessionStatus) (now : String) (chunk : Chunk)
    (h : chunk.sequence
      = (lookupOrInit snaps sid (chunk.payloadType.getD .dom) ws chunk.totalChunks).receivedChunks)
    (hlt : ¬((lookupOrInit snaps sid (chunk.payloadType.getD .dom) ws chunk.totalChunks).receivedChunks + 1
      ≥ chunk.totalChunks)) :
    appendSnapshotChunk snaps sid ws status now chunk =
      { error := none
        snaps := setSnap snaps sid (chunk.payloadType.getD .dom)
          (some { accumulateChunk
                    { lookupOrInit snaps sid (chunk.payloadType.getD .dom) ws chunk.totalChunks with
                      expectedChunks := chunk.totalChunks } chunk with
                  receivedChunks :=
                    (lookupOrInit snaps sid (chunk.payloadType.getD .dom) ws chunk.totalChunks).receivedChunks + 1 })
        status := .capturing
        events := progressEvents sid (chunk.payloadType.getD .dom)
          ((lookupOrInit snaps sid (chunk.payloadType.getD .dom) ws chunk.totalChunks).receivedChunks + 1)
          chunk.totalChunks now
        writes := [] } := by
  simp [appendSnapshotChunk, h, hlt]

/-- Branch equation for `appendSnapshotChunk`: accepted chunk that completes
the payload and triggers finalization. -/
theorem appendSnapshotChunk_ok_fin (snaps : SnapMap) (sid ws : String)
    (status : SessionStatus) (now : String) (chunk : Chunk)
    (h : chunk.sequence
      = (lookupOrInit snaps sid (chunk.payloadType.getD .dom) ws chunk.totalChunks).receivedChunks)
    (hge : (lookupOrInit snaps sid (chunk.payloadType.getD .dom) ws chunk.totalChunks).receivedChunks + 1
      ≥ chunk.totalChunks) :
    appendSnapshotChunk snaps sid ws status now chunk =
      { error := none
        snaps := (finalizeSnapshot
          (setSnap snaps sid (chunk.payloadType.getD .dom)
            (some { accumulateChunk
                      { lookupOrInit snaps sid (chunk.payloadType.getD .dom) ws chunk.totalChunks with
                        expectedChunks := chunk.totalChunks } chunk with
                    receivedChunks :=
                      (lookupOrInit snaps sid (chunk.payloadType.getD .dom) ws chunk.totalChunks).receivedChunks + 1 }))
          sid (chunk.payloadType.getD .dom)
          { accumulateChunk
              { lookupOrInit snaps sid (chunk.payloadType.getD .dom) ws chunk.totalChunks with
                expectedChunks := chunk.totalChunks } chunk with
            receivedChunks :=
              (lookupOrInit snaps sid (chunk.payloadType.getD .dom) ws chunk.totalChunks).receivedChunks + 1 }).1
        status := .capturing
        events := progressEvents sid (chunk.payloadType.getD .dom)
          ((lookupOrInit snaps sid (chunk.payloadType.getD .dom) ws chunk.totalChunks).receivedChunks + 1)
          chunk.totalChunks now
        writes := (finalizeSnapshot
          (setSnap snaps sid (chunk.payloadType.getD .dom)
            (some { accumulateChunk
                      { lookupOrInit snaps sid (chunk.payloadType.getD .dom) ws chunk.totalChunks with
                        expectedChunks := chunk.totalChunks } chunk with
                    receivedChunks :=
                      (lookupOrInit snaps sid (chunk.payloadType.getD .dom) ws chunk.totalChunks).receivedChunks + 1 }))
          sid (chunk.payloadType.getD .dom)
          { accumulateChunk
              { lookupOrInit snaps sid (chunk.payloadType.getD .dom) ws chunk.totalChunks with
                expectedChunks := chunk.totalChunks } chunk with
            receivedChunks :=
              (lookupOrInit snaps sid (chunk.payloadType.getD .dom) ws chunk.totalChunks).receivedChunks + 1 }).2 } := by
  simp [appendSnapshotChunk, h, hge]

/-- Accumulated outcome of a sequence of chunk deliveries. -/
structure RunResult where
  snaps : SnapMap
  status : SessionStatus
  errors : List (Option ChunkError)
  writes : List (String × FileData)

/-- Delivers a list of chunks one after the other (each delivery is one
`POST /clone/session/:sessionId/chunk` handled by `appendSnapshotChunk`). -/
def runChunks (snaps : SnapMap) (sid ws : String) (status : SessionStatus)
    (now : String) : List Chunk → RunResult
  | [] => { snaps := snaps, status := status, errors := [], writes := [] }
  | c :: cs =>
      let r := appendSnapshotChunk snaps sid ws status now c
      let rest := runChunks r.snaps sid ws r.status now cs
      { snaps := rest.snaps, status := rest.status
        errors := r.error :: rest.errors, writes := r.writes ++ rest.writes }

/-- In-order chunk sequence carrying the given payloads: sequence numbers count
up from `k`, every chunk declares the same `totalChunks`. -/
def mkChunks (pt : Option PayloadType) (total : Int) : Int → List (PayloadFormat × String) → List Chunk
  | _, [] => []
  | k, (f, p) :: rest =>
      { sequence := k, totalChunks := total, payloadType := pt
        payloadFormat := f, payload := p } :: mkChunks pt total (k + 1) rest

/-- Empty registry: no session has any in-flight payload. -/
def emptySnaps : SnapMap := fun _ _ => none

/-- C1: delivering a chunk whose sequence number differs from the count of
chunks already received for an in-flight (session, payload type) assembly is
rejected with an error identifying the expected versus received sequence
number; the rejection leaves `receivedChunks` and the sink's already
written/buffered content unchanged (only `expectedChunks` is overwritten with
the chunk's `totalChunks`, before the check), and every other payload type's
and session's assembly state is untouched. -/
theorem c1_sequence_violation_rejected
    (snaps : SnapMap) (sid ws : String) (status : SessionStatus) (now : String)
    (chunk : Chunk) (st : SnapshotState)
    (hst : snaps sid (chunk.payloadType.getD .dom) = some st)
    (hseq : chunk.sequence ≠ st.receivedChunks) :
    (appendSnapshotChunk snaps sid ws status now chunk).error
        = some (.unexpectedSequence sid st.receivedChunks chunk.sequence) ∧
    (appendSnapshotChunk snaps sid ws status now chunk).snaps sid (chunk.payloadType.getD .dom)
        = some { st with expectedChunks := chunk.totalChunks } ∧
    (appendSnapshotChunk snaps sid ws status now chunk).writes = [] ∧
    (∀ s t, ¬(s = sid ∧ t = chunk.payloadType.getD .dom) →
      (appendSnapshotChunk snaps sid ws status now chunk).snaps s t = snaps s t) := by
  have hlk : lookupOrInit snaps sid (chunk.payloadType.getD .dom) ws chunk.totalChunks = st := by
    simp [lookupOrInit, hst]
  refine ⟨?_, ?_, ?_, ?_⟩
  · simp [appendSnapshotChunk, hlk, hseq]
  · simp [appendSnapshotChunk, hlk, hseq, setSnap]
  · simp [appendSnapshotChunk, hlk, hseq]
  · intro s t h
    simp [appendSnapshotChunk, hlk, hseq, setSnap, h]

/-- C1 witness: a concrete in-flight `dom` assembly that has already received
one chunk rejects a chunk with sequence number 5, reporting expected 1 and
received 5, leaving the state's counter and sink intact. -/
theorem c1_sequence_violation_rejected_witness :
    (fun s t => if s = "s1" ∧ t = PayloadType.dom then
        some { payloadType := .dom, writeStream := some "ab".data, expectedChunks := 3
               receivedChunks := 1, filePath := "w/dom-snapshot.json"
               buffers := none : SnapshotState } else none) "s1"
      ((some PayloadType.dom).getD .dom)
        = some { payloadType := .dom, writeStream := some "ab".data, expectedChunks := 3
                 receivedChunks := 1, filePath := "w/dom-snapshot.json", buffers := none } ∧
    (5 : Int) ≠ (1 : Int) ∧
    ((appendSnapshotChunk (fun s t => if s = "s1" ∧ t = PayloadType.dom then
        some { payloadType := .dom, writeStream := some "ab".data, expectedChunks := 3
               receivedChunks := 1, filePath := "w/dom-snapshot.json"
               buffers := none : SnapshotState } else none) "s1" "w" .capturing "t"
        { sequence := 5, totalChunks := 3, payloadType := some .dom
          payloadFormat := .json, payload := "x" }).error
      = some (.unexpectedSequence "s1" 1 5)) :=
  ⟨by decide, by decide,
    (c1_sequence_violation_rejected _ "s1" "w" .capturing "t"
      { sequence := 5, totalChunks := 3, payloadType := some .dom
        payloadFormat := .json, payload := "x" }
      { payloadType := .dom, writeStream := some "ab".data, expectedChunks := 3
        receivedChunks := 1, filePath := "w/dom-snapshot.json", buffers := none }
      (by decide) (by decide)).1⟩

/-- C4: after `appendSnapshotChunk` processes a chunk, whatever assembly state
remains registered for that (session, payload type) has `expectedChunks` equal
to the chunk's declared `totalChunks` — a later chunk's differing declaration
silently overwrites the expected count; a chunk rejected for a sequence
violation still leaves the assembly present (with `receivedChunks` unchanged)
and its `totalChunks` in force; the state is absent only after a successful
finalization. -/
theorem c4_total_chunks_overwritten
    (snaps : SnapMap) (sid ws : String) (status : SessionStatus) (now : String)
    (chunk : Chunk) :
    (∀ st, (appendSnapshotChunk snaps sid ws status now chunk).snaps sid
        (chunk.payloadType.getD .dom) = some st →
      st.expectedChunks = chunk.totalChunks ∧
      ((appendSnapshotChunk snaps sid ws status now chunk).error.isSome →
        st.receivedChunks
          = (lookupOrInit snaps sid (chunk.payloadType.getD .dom) ws chunk.totalChunks).receivedChunks)) ∧
    ((appendSnapshotChunk snaps sid ws status now chunk).error.isSome →
      (appendSnapshotChunk snaps sid ws status now chunk).snaps sid
        (chunk.payloadType.getD .dom) ≠ none) ∧
    ((appendSnapshotChunk snaps sid ws status now chunk).snaps sid
        (chunk.payloadType.getD .dom) = none →
      (appendSnapshotChunk snaps sid ws status now chunk).error = none) := by
  by_cases hseq : chunk.sequence
      = (lookupOrInit snaps sid (chunk.payloadType.getD .dom) ws chunk.totalChunks).receivedChunks
  · by_cases hfin : (lookupOrInit snaps sid (chunk.payloadType.getD .dom) ws chunk.totalChunks).receivedChunks + 1
        ≥ chunk.totalChunks
    · rw [appendSnapshotChunk_ok_fin snaps sid ws status now chunk hseq hfin]
      refine ⟨?_, ?_, ?_⟩
      · intro st hst
        simp [finalizeSnapshot, setSnap] at hst
      · simp
      · simp
    · rw [appendSnapshotChunk_ok_cont snaps sid ws status now chunk hseq hfin]
      refine ⟨?_, ?_, ?_⟩
      · intro st hst
        simp [setSnap] at hst
        subst hst
        simp
      · simp
      · simp [setSnap]
  · rw [appendSnapshotChunk_seq_err snaps sid ws status now chunk hseq]
    refine ⟨?_, ?_, ?_⟩
    · intro st hst
      simp [setSnap] at hst
      subst hst
      simp
    · simp [setSnap]
    · simp [setSnap]

/-- C4 witness: a second chunk declaring `totalChunks = 7` for an assembly
created with `totalChunks = 3`, rejected for its out-of-order sequence number,
still overwrites the expected count to 7 while keeping `receivedChunks`. -/
theorem c4_total_chunks_overwritten_witness :
    ∀ st, (appendSnapshotChunk (fun s t => if s = "s1" ∧ t = PayloadType.styles then
        some { payloadType := .styles, writeStream := none, expectedChunks := 3
               receivedChunks := 1, filePath := "w/styles.json"
               buffers := some ["a"] : SnapshotState } else none) "s1" "w" .capturing "t"
        { sequence := 9, totalChunks := 7, payloadType := some .styles
          payloadFormat := .json, payload := "x" }).snaps "s1"
        ((some PayloadType.styles).getD .dom) = some st →
      st.expectedChunks = 7 ∧
      ((appendSnapshotChunk (fun s t => if s = "s1" ∧ t = PayloadType.styles then
          some { payloadType := .styles, writeStream := none, expectedChunks := 3
                 receivedChunks := 1, filePath := "w/styles.json"
                 buffers := some ["a"] : SnapshotState } else none) "s1" "w" .capturing "t"
          { sequence := 9, totalChunks := 7, payloadType := some .styles
            payloadFormat := .json, payload := "x" }).error.isSome →
        st.receivedChunks
          = (lookupOrInit (fun s t => if s = "s1" ∧ t = PayloadType.styles then
              some { payloadType := .styles, writeStream := none, expectedChunks := 3
                     receivedChunks := 1, filePath := "w/styles.json"
                     buffers := some ["a"] : SnapshotState } else none) "s1"
              ((some PayloadType.styles).getD .dom) "w" 7).receivedChunks) :=
  (c4_total_chunks_overwritten _ "s1" "w" .capturing "t"
    { sequence := 9, totalChunks := 7, payloadType := some .styles
      payloadFormat := .json, payload := "x" }).1

/-- C3 counterexample: an accepted chunk for the `animations` payload type
sets the session status to `capturing` but emits no progress event at all
(`resolveProgressPhase` has no case for `animations`), refuting the claim that
every accepted chunk emits a progress event whose phase corresponds to its
payload type. -/
theorem c3_counterexample_animations :
    (appendSnapshotChunk emptySnaps "s1" "w" .initializing "t"
        { sequence := 0, totalChunks := 2, payloadType := some .animations
          payloadFormat := .json, payload := "{}" }).error = none ∧
    (appendSnapshotChunk emptySnaps "s1" "w" .initializing "t"
        { sequence := 0, totalChunks := 2, payloadType := some .animations
          payloadFormat := .json, payload := "{}" }).status = .capturing ∧
    (appendSnapshotChunk emptySnaps "s1" "w" .initializing "t"
        { sequence := 0, totalChunks := 2, payloadType := some .animations
          payloadFormat := .json, payload := "{}" }).events = [] := by
  refine ⟨?_, ?_, ?_⟩ <;> decide

/-- C3 (amended): every accepted chunk sets the session status to `capturing`;
for the payload types `dom`, `styles`, `assets`, `interactions` and
`responsive` (exactly those with a progress phase) one progress event is
emitted whose phase corresponds to the payload type and whose progress is
`receivedChunks / expectedChunks` clamped to 1 (and 1 when the expected count
is not positive); for `animations` — the one payload type without a phase —
no progress event is emitted. -/
theorem c3_status_and_progress_event
    (snaps : SnapMap) (sid ws : String) (status : SessionStatus) (now : String)
    (chunk : Chunk)
    (hok : (appendSnapshotChunk snaps sid ws status now chunk).error = none) :
    (appendSnapshotChunk snaps sid ws status now chunk).status = .capturing ∧
    (appendSnapshotChunk snaps sid ws status now chunk).events
      = progressEvents sid (chunk.payloadType.getD .dom)
          ((lookupOrInit snaps sid (chunk.payloadType.getD .dom) ws chunk.totalChunks).receivedChunks + 1)
          chunk.totalChunks now ∧
    (∀ ph, resolveProgressPhase (chunk.payloadType.getD .dom) = some ph →
      (appendSnapshotChunk snaps sid ws status now chunk).events
        = [{ sessionId := sid, phase := ph
             progress :=
               if chunk.totalChunks > 0 then
                 min ((((lookupOrInit snaps sid (chunk.payloadType.getD .dom) ws
                     chunk.totalChunks).receivedChunks + 1 : Int) : ℚ)
                   / ((chunk.totalChunks : Int) : ℚ)) 1
               else 1
             message := "Captured "
               ++ toString ((lookupOrInit snaps sid (chunk.payloadType.getD .dom) ws
                    chunk.totalChunks).receivedChunks + 1)
               ++ "/" ++ toString chunk.totalChunks ++ " "
               ++ payloadTypeName (chunk.payloadType.getD .dom) ++ " chunks"
             timestamp := now }]) ∧
    (resolveProgressPhase (chunk.payloadType.getD .dom) = none →
      (appendSnapshotChunk snaps sid ws status now chunk).events = []) ∧
    (resolveProgressPhase (chunk.payloadType.getD .dom) = none
      ↔ chunk.payloadType.getD .dom = .animations) := by
  have htable : resolveProgressPhase (chunk.payloadType.getD .dom) = none
      ↔ chunk.payloadType.getD .dom = .animations := by
    rcases hpt : chunk.payloadType.getD .dom <;> simp [resolveProgressPhase]
  by_cases hseq : chunk.sequence
      = (lookupOrInit snaps sid (chunk.payloadType.getD .dom) ws chunk.totalChunks).receivedChunks
  · by_cases hfin : (lookupOrInit snaps sid (chunk.payloadType.getD .dom) ws chunk.totalChunks).receivedChunks + 1
        ≥ chunk.totalChunks
    · rw [appendSnapshotChunk_ok_fin snaps sid ws status now chunk hseq hfin]
      refine ⟨rfl, rfl, ?_, ?_, htable⟩
      · intro ph hph
        simp [progressEvents, hph]
      · intro hph
        simp [progressEvents, hph]
    · rw [appendSnapshotChunk_ok_cont snaps sid ws status now chunk hseq hfin]
      refine ⟨rfl, rfl, ?_, ?_, htable⟩
      · intro ph hph
        simp [progressEvents, hph]
      · intro hph
        simp [progressEvents, hph]
  · rw [appendSnapshotChunk_seq_err snaps sid ws status now chunk hseq] at hok
    simp at hok

/-- C3 witness: a first `styles` chunk (3 expected) is accepted and the
amended theorem yields status `capturing`. -/
theorem c3_status_and_progress_event_witness :
    (appendSnapshotChunk emptySnaps "s1" "w" .initializing "t"
        { sequence := 0, totalChunks := 3, payloadType := some .styles
          payloadFormat := .json, payload := "{}" }).error = none ∧
    (appendSnapshotChunk emptySnaps "s1" "w" .initializing "t"
        { sequence := 0, totalChunks := 3, payloadType := some .styles
          payloadFormat := .json, payload := "{}" }).status = .capturing :=
  ⟨by decide,
    (c3_status_and_progress_event emptySnaps "s1" "w" .initializing "t"
      { sequence := 0, totalChunks := 3, payloadType := some .styles
        payloadFormat := .json, payload := "{}" } (by decide)).1⟩

/-- C10: a chunk whose `payloadType` is absent is treated exactly as a `dom`
chunk: the whole `appendSnapshotChunk` outcome coincides with that of the same
chunk tagged `dom` (so it shares the `dom` sequence counter and expected-chunk
state), a fresh assembly for it streams through a write stream (not the memory
buffers) into `<workspace>/dom-snapshot.json`, and on completion the streamed
bytes are persisted at that path. -/
theorem c10_missing_payload_type_is_dom
    (snaps : SnapMap) (sid ws : String) (status : SessionStatus) (now : String)
    (chunk : Chunk) (hnone : chunk.payloadType = none) :
    appendSnapshotChunk snaps sid ws status now chunk
      = appendSnapshotChunk snaps sid ws status now { chunk with payloadType := some .dom } ∧
    resolveSnapshotFilePath ws .dom = ws ++ "/" ++ "dom-snapshot.json" ∧
    (snaps sid .dom = none → chunk.sequence = 0 → ¬((1 : Int) ≥ chunk.totalChunks) →
      (appendSnapshotChunk snaps sid ws status now chunk).snaps sid .dom
        = some { payloadType := .dom
                 writeStream := some (decodeChunkPayload chunk.payloadFormat chunk.payload)
                 expectedChunks := chunk.totalChunks
                 receivedChunks := 1
                 filePath := ws ++ "/" ++ "dom-snapshot.json"
                 buffers := none }) ∧
    (snaps sid .dom = none → chunk.sequence = 0 → (1 : Int) ≥ chunk.totalChunks →
      (appendSnapshotChunk snaps sid ws status now chunk).writes
        = [(ws ++ "/" ++ "dom-snapshot.json",
            .streamed (decodeChunkPayload chunk.payloadFormat chunk.payload))]) := by
  obtain ⟨cs, ct, cpt, cf, cp⟩ := chunk
  simp only at hnone
  subst hnone
  refine ⟨rfl, rfl, ?_, ?_⟩
  · intro h0 hs hlt
    simp only at hs hlt
    subst hs
    have hlk : lookupOrInit snaps sid PayloadType.dom ws ct
        = initialSnapshotState ws .dom ct := by
      simp [lookupOrInit, h0]
    have hseq : (0 : Int) = (lookupOrInit snaps sid PayloadType.dom ws ct).receivedChunks := by
      rw [hlk]
      rfl
    have hlt2 : ¬((lookupOrInit snaps sid PayloadType.dom ws ct).receivedChunks + 1 ≥ ct) := by
      rw [hlk]
      simpa [initialSnapshotState] using hlt
    rw [appendSnapshotChunk_ok_cont snaps sid ws status now _ hseq hlt2]
    simp [setSnap, hlk, initialSnapshotState, accumulateChunk, resolveSnapshotFilePath]
  · intro h0 hs hge
    simp only at hs hge
    subst hs
    have hlk : lookupOrInit snaps sid PayloadType.dom ws ct
        = initialSnapshotState ws .dom ct := by
      simp [lookupOrInit, h0]
    have hseq : (0 : Int) = (lookupOrInit snaps sid PayloadType.dom ws ct).receivedChunks := by
      rw [hlk]
      rfl
    have hge2 : (lookupOrInit snaps sid PayloadType.dom ws ct).receivedChunks + 1 ≥ ct := by
      rw [hlk]
      simpa [initialSnapshotState] using hge
    rw [appendSnapshotChunk_ok_fin snaps sid ws status now _ hseq hge2]
    simp [finalizeSnapshot, setSnap, hlk, initialSnapshotState, accumulateChunk,
      resolveSnapshotFilePath]

/-- C10 witness: a single-chunk upload with no `payloadType` field lands in
`w/dom-snapshot.json` via the stream. -/
theorem c10_missing_payload_type_is_dom_witness :
    ({ sequence := 0, totalChunks := 1, payloadType := none
       payloadFormat := .json, payload := "{}" : Chunk }).payloadType = none ∧
    (appendSnapshotChunk emptySnaps "s1" "w" .initializing "t"
        { sequence := 0, totalChunks := 1, payloadType := none
          payloadFormat := .json, payload := "{}" }).writes
      = [("w" ++ "/" ++ "dom-snapshot.json",
          .streamed (decodeChunkPayload .json "{}"))] :=
  ⟨rfl,
    (c10_missing_payload_type_is_dom emptySnaps "s1" "w" .initializing "t"
      { sequence := 0, totalChunks := 1, payloadType := none
        payloadFormat := .json, payload := "{}" } rfl).2.2.2 rfl rfl (by decide)⟩

/-- One-step unfolding of `runChunks` on a non-empty chunk list. -/
theorem runChunks_cons (snaps : SnapMap) (sid ws : String) (status : SessionStatus)
    (now : String) (c : Chunk) (cs : List Chunk) :
    runChunks snaps sid ws status now (c :: cs)
      = { snaps := (runChunks (appendSnapshotChunk snaps sid ws status now c).snaps sid ws
            (appendSnapshotChunk snaps sid ws status now c).status now cs).snaps
          status := (runChunks (appendSnapshotChunk snaps sid ws status now c).snaps sid ws
            (appendSnapshotChunk snaps sid ws status now c).status now cs).status
          errors := (appendSnapshotChunk snaps sid ws status now c).error
            :: (runChunks (appendSnapshotChunk snaps sid ws status now c).snaps sid ws
              (appendSnapshotChunk snaps sid ws status now c).status now cs).errors
          writes := (appendSnapshotChunk snaps sid ws status now c).writes
            ++ (runChunks (appendSnapshotChunk snaps sid ws status now c).snaps sid ws
              (appendSnapshotChunk snaps sid ws status now c).status now cs).writes } := rfl

/-- Looking up a key that was just written returns the written state. -/
@[simp] theorem lookupOrInit_setSnap_self (m : SnapMap) (sid : String) (pt : PayloadType)
    (ws : String) (t : Int) (s : SnapshotState) :
    lookupOrInit (setSnap m sid pt (some s)) sid pt ws t = s := by
  simp [lookupOrInit, setSnap]

/-- Invariant run lemma for the streamed (`dom`) sink: delivering the
remaining in-order chunks (sequences `k, k+1, ...`, constant declared total)
of a stream-backed assembly is error-free, appends each chunk's decoded bytes
in order, and on the final chunk closes the stream, writing the accumulated
bytes to the assembly's file path. -/
theorem runChunks_stream (total : Int) (sid ws now fp : String) (pt : PayloadType)
    (ps : List (PayloadFormat × String)) :
    ∀ (snaps : SnapMap) (status : SessionStatus) (k : Int) (acc : List Char),
    ps ≠ [] →
    total = k + (ps.length : Int) →
    (∀ t, ∃ e, lookupOrInit snaps sid pt ws t
        = { payloadType := pt, writeStream := some acc, expectedChunks := e
            receivedChunks := k, filePath := fp, buffers := none }) →
    (runChunks snaps sid ws status now (mkChunks (some pt) total k ps)).errors
        = List.replicate ps.length none ∧
    (runChunks snaps sid ws status now (mkChunks (some pt) total k ps)).writes
        = [(fp, .streamed (acc ++ (ps.map (fun q => decodeChunkPayload q.1 q.2)).flatten))] := by
  induction ps with
  | nil =>
      intro snaps status k acc hne _ _
      exact absurd rfl hne
  | cons x rest ih =>
      intro snaps status k acc _ htot hst
      obtain ⟨f, p⟩ := x
      obtain ⟨e, he⟩ := hst total
      have hseq : (k : Int) = (lookupOrInit snaps sid pt ws total).receivedChunks := by
        rw [he]
      rcases rest with _ | ⟨y, rest'⟩
      · have hge : (lookupOrInit snaps sid pt ws total).receivedChunks + 1 ≥ total := by
          rw [he]
          show k + 1 ≥ total
          simp only [List.length_cons, List.length_nil] at htot
          omega
        have happ := appendSnapshotChunk_ok_fin snaps sid ws status now
          { sequence := k, totalChunks := total, payloadType := some pt
            payloadFormat := f, payload := p } hseq hge
        simp only [mkChunks, runChunks, happ]
        constructor
        · simp
        · simp [finalizeSnapshot, he, accumulateChunk]
      · have hlen : ((y :: rest').length : Int) ≥ 1 := by
          simp only [List.length_cons]
          omega
        have hlt : ¬((lookupOrInit snaps sid pt ws total).receivedChunks + 1 ≥ total) := by
          rw [he]
          show ¬(k + 1 ≥ total)
          simp only [List.length_cons] at htot
          push_cast at htot
          omega
        have happ := appendSnapshotChunk_ok_cont snaps sid ws status now
          { sequence := k, totalChunks := total, payloadType := some pt
            payloadFormat := f, payload := p } hseq hlt
        have hstep := ih
          ((appendSnapshotChunk snaps sid ws status now
            { sequence := k, totalChunks := total, payloadType := some pt
              payloadFormat := f, payload := p }).snaps)
          ((appendSnapshotChunk snaps sid ws status now
            { sequence := k, totalChunks := total, payloadType := some pt
              payloadFormat := f, payload := p }).status)
          (k + 1) (acc ++ decodeChunkPayload f p)
          (List.cons_ne_nil y rest')
          (by
            simp only [List.length_cons] at htot ⊢
            push_cast at htot ⊢
            omega)
          (by
            intro t
            refine ⟨total, ?_⟩
            rw [happ]
            simp [lookupOrInit_setSnap_self, he, accumulateChunk])
        have hm : mkChunks (some pt) total k ((f, p) :: y :: rest')
            = { sequence := k, totalChunks := total, payloadType := some pt
                payloadFormat := f, payload := p }
              :: mkChunks (some pt) total (k + 1) (y :: rest') := rfl
        simp only [hm, runChunks_cons]
        refine ⟨?_, ?_⟩
        · rw [hstep.1]
          simp [happ, List.replicate_succ]
        · rw [hstep.2]
          simp [happ]

/-- Invariant run lemma for the buffered sinks: delivering the remaining
in-order chunks of a buffer-backed assembly is error-free, pushes each raw
payload string in order, and on the final chunk joins the buffers and persists
them through `persistBufferedSnapshot`. -/
theorem runChunks_buffered (total : Int) (sid ws now fp : String) (pt : PayloadType)
    (ps : List (PayloadFormat × String)) :
    ∀ (snaps : SnapMap) (status : SessionStatus) (k : Int) (acc : List String),
    ps ≠ [] →
    total = k + (ps.length : Int) →
    (∀ t, ∃ e, lookupOrInit snaps sid pt ws t
        = { payloadType := pt, writeStream := none, expectedChunks := e
            receivedChunks := k, filePath := fp, buffers := some acc }) →
    (runChunks snaps sid ws status now (mkChunks (some pt) total k ps)).errors
        = List.replicate ps.length none ∧
    (runChunks snaps sid ws status now (mkChunks (some pt) total k ps)).writes
        = [(fp, persistBufferedSnapshot pt (String.join (acc ++ ps.map Prod.snd)))] := by
  induction ps with
  | nil =>
      intro snaps status k acc hne _ _
      exact absurd rfl hne
  | cons x rest ih =>
      intro snaps status k acc _ htot hst
      obtain ⟨f, p⟩ := x
      obtain ⟨e, he⟩ := hst total
      have hseq : (k : Int) = (lookupOrInit snaps sid pt ws total).receivedChunks := by
        rw [he]
      rcases rest with _ | ⟨y, rest'⟩
      · have hge : (lookupOrInit snaps sid pt ws total).receivedChunks + 1 ≥ total := by
          rw [he]
          show k + 1 ≥ total
          simp only [List.length_cons, List.length_nil] at htot
          omega
        have happ := appendSnapshotChunk_ok_fin snaps sid ws status now
          { sequence := k, totalChunks := total, payloadType := some pt
            payloadFormat := f, payload := p } hseq hge
        simp only [mkChunks, runChunks, happ]
        constructor
        · simp
        · simp [finalizeSnapshot, he, accumulateChunk]
      · have hlt : ¬((lookupOrInit snaps sid pt ws total).receivedChunks + 1 ≥ total) := by
          rw [he]
          show ¬(k + 1 ≥ total)
          simp only [List.length_cons] at htot
          push_cast at htot
          omega
        have happ := appendSnapshotChunk_ok_cont snaps sid ws status now
          { sequence := k, totalChunks := total, payloadType := some pt
            payloadFormat := f, payload := p } hseq hlt
        have hstep := ih
          ((appendSnapshotChunk snaps sid ws status now
            { sequence := k, totalChunks := total, payloadType := some pt
              payloadFormat := f, payload := p }).snaps)
          ((appendSnapshotChunk snaps sid ws status now
            { sequence := k, totalChunks := total, payloadType := some pt
              payloadFormat := f, payload := p }).status)
          (k + 1) (acc ++ [p])
          (List.cons_ne_nil y rest')
          (by
            simp only [List.length_cons] at htot ⊢
            push_cast at htot ⊢
            omega)
          (by
            intro t
            refine ⟨total, ?_⟩
            rw [happ]
            simp [lookupOrInit_setSnap_self, he, accumulateChunk])
        have hm : mkChunks (some pt) total k ((f, p) :: y :: rest')
            = { sequence := k, totalChunks := total, payloadType := some pt
                payloadFormat := f, payload := p }
              :: mkChunks (some pt) total (k + 1) (y :: rest') := rfl
        simp only [hm, runChunks_cons]
        refine ⟨?_, ?_⟩
        · rw [hstep.1]
          simp [happ, List.replicate_succ]
        · rw [hstep.2]
          simp [happ]

/-- C2 counterexample: a single-chunk `interactions` upload declaring the
`base64` encoding tag is persisted as the raw base64 text (`"aGk="`), not the
decoded bytes (`"hi"`): buffered payload types push `chunk.payload` verbatim
and `persistBufferedSnapshot` writes the joined text as utf8, ignoring the
encoding tag, so the output differs from the decoded concatenation the claim
requires. -/
theorem c2_counterexample_buffered_base64 :
    (appendSnapshotChunk emptySnaps "s1" "w" .initializing "t"
        { sequence := 0, totalChunks := 1, payloadType := some .interactions
          payloadFormat := .base64, payload := "aGk=" }).writes
      = [("w" ++ "/" ++ "interactions.json", .rawText "aGk=")] ∧
    decodeChunkPayload .base64 "aGk=" = "hi".data ∧
    ("aGk=" : String) ≠ "hi" := by
  refine ⟨?_, ?_, ?_⟩ <;> decide

/-- C2 (amended): delivering chunk sequences `0..N-1` in order for a fresh
(session, payload type) with constant declared total `N` is error-free; the
`dom` payload's finalized file holds the concatenation, in sequence order, of
the chunk payloads decoded per their declared encoding tag; the buffered
pass-through types `interactions`, `animations` and `responsive` are persisted
as the concatenation of the raw payload strings as received — their declared
encoding tag is not applied. -/
theorem c2_assembled_output
    (snaps : SnapMap) (sid ws : String) (status : SessionStatus) (now : String)
    (pt : PayloadType) (ps : List (PayloadFormat × String))
    (hne : ps ≠ []) (hfresh : snaps sid pt = none) :
    (runChunks snaps sid ws status now (mkChunks (some pt) (ps.length : Int) 0 ps)).errors
        = List.replicate ps.length none ∧
    (pt = .dom →
      (runChunks snaps sid ws status now (mkChunks (some pt) (ps.length : Int) 0 ps)).writes
        = [(resolveSnapshotFilePath ws .dom,
            .streamed ((ps.map (fun q => decodeChunkPayload q.1 q.2)).flatten))]) ∧
    (pt = .interactions ∨ pt = .animations ∨ pt = .responsive →
      (runChunks snaps sid ws status now (mkChunks (some pt) (ps.length : Int) 0 ps)).writes
        = [(resolveSnapshotFilePath ws pt, .rawText (String.join (ps.map Prod.snd)))]) := by
  cases pt with
  | dom =>
      have h := runChunks_stream (ps.length : Int) sid ws now
        (resolveSnapshotFilePath ws PayloadType.dom) .dom ps snaps status 0 []
        hne (by simp)
        (by
          intro t
          refine ⟨t, ?_⟩
          simp [lookupOrInit, hfresh, initialSnapshotState])
      refine ⟨h.1, fun _ => by simpa using h.2, ?_⟩
      intro hc
      rcases hc with hc | hc | hc <;> simp at hc
  | styles =>
      have h := runChunks_buffered (ps.length : Int) sid ws now
        (resolveSnapshotFilePath ws PayloadType.styles) .styles ps snaps status 0 []
        hne (by simp)
        (by
          intro t
          refine ⟨t, ?_⟩
          simp [lookupOrInit, hfresh, initialSnapshotState])
      refine ⟨h.1, ?_, ?_⟩ <;> intro hc
      · simp at hc
      · rcases hc with hc | hc | hc <;> simp at hc
  | assets =>
      have h := runChunks_buffered (ps.length : Int) sid ws now
        (resolveSnapshotFilePath ws PayloadType.assets) .assets ps snaps status 0 []
        hne (by simp)
        (by
          intro t
          refine ⟨t, ?_⟩
          simp [lookupOrInit, hfresh, initialSnapshotState])
      refine ⟨h.1, ?_, ?_⟩ <;> intro hc
      · simp at hc
      · rcases hc with hc | hc | hc <;> simp at hc
  | interactions =>
      have h := runChunks_buffered (ps.length : Int) sid ws now
        (resolveSnapshotFilePath ws PayloadType.interactions) .interactions ps snaps status 0 []
        hne (by simp)
        (by
          intro t
          refine ⟨t, ?_⟩
          simp [lookupOrInit, hfresh, initialSnapshotState])
      refine ⟨h.1, ?_, fun _ => ?_⟩
      · intro hc
        simp at hc
      · simpa [persistBufferedSnapshot] using h.2
  | animations =>
      have h := runChunks_buffered (ps.length : Int) sid ws now
        (resolveSnapshotFilePath ws PayloadType.animations) .animations ps snaps status 0 []
        hne (by simp)
        (by
          intro t
          refine ⟨t, ?_⟩
          simp [lookupOrInit, hfresh, initialSnapshotState])
      refine ⟨h.1, ?_, fun _ => ?_⟩
      · intro hc
        simp at hc
      · simpa [persistBufferedSnapshot] using h.2
  | responsive =>
      have h := runChunks_buffered (ps.length : Int) sid ws now
        (resolveSnapshotFilePath ws PayloadType.responsive) .responsive ps snaps status 0 []
        hne (by simp)
        (by
          intro t
          refine ⟨t, ?_⟩
          simp [lookupOrInit, hfresh, initialSnapshotState])
      refine ⟨h.1, ?_, fun _ => ?_⟩
      · intro hc
        simp at hc
      · simpa [persistBufferedSnapshot] using h.2

/-- C2 witness: two in-order `interactions` chunks assemble error-free into the
concatenation of their raw payload strings. -/
theorem c2_assembled_output_witness :
    ([(PayloadFormat.json, "ab"), (PayloadFormat.json, "cd")]
        : List (PayloadFormat × String)) ≠ [] ∧
    (runChunks emptySnaps "s1" "w" .initializing "t"
        (mkChunks (some .interactions)
          ((([(PayloadFormat.json, "ab"), (PayloadFormat.json, "cd")]
            : List (PayloadFormat × String)).length : Int)) 0
          [(PayloadFormat.json, "ab"), (PayloadFormat.json, "cd")])).writes
      = [(resolveSnapshotFilePath "w" .interactions,
          .rawText (String.join
            (([(PayloadFormat.json, "ab"), (PayloadFormat.json, "cd")]
              : List (PayloadFormat × String)).map Prod.snd)))] :=
  ⟨by decide,
    (c2_assembled_output emptySnaps "s1" "w" .initializing "t" .interactions
      [(PayloadFormat.json, "ab"), (PayloadFormat.json, "cd")]
      (by decide) rfl).2.2 (Or.inl rfl)⟩

/-- One entry of `payload.stylesheets` as read by `dedupeStylesheets`: `href`
and `type` are `none` when absent or not a string (`null`), `content` is the
empty string when absent (the code coerces a non-string `content` to `""`).
Further fields of the JS object are irrelevant to deduplication and carried
through unchanged by the object spread. -/
structure Stylesheet where
  href : Option String
  type : Option String
  content : String
deriving DecidableEq

/-- Parsed `styles` payload (`computedStyles` entries are opaque to the
deduplication and modelled as opaque strings). -/
structure StylesPayload where
  stylesheets : List Stylesheet
  computedStyles : List String
  capturedAt : Option String
deriving DecidableEq

/-- Normalized result object written to `styles.json`: capture timestamp, the
deduplicated stylesheet entries (each paired with its content hash, the `hash`
field added by the code), and the computed styles carried unmodified. -/
structure NormalizedStyles where
  capturedAt : String
  stylesheets : List (Stylesheet × String)
  computedStyles : List String
deriving DecidableEq

/-- JS `x || d` on an optional string (absent and `""` are falsy). -/
def jsOr : Option String → String → String
  | some v, d => if v = "" then d else v
  | none, d => d

/-- Deduplication key of a stylesheet entry: its `href` when that is a
truthy (non-empty) string, else the synthetic `${sheet.type || "inline"}:${hash}`. -/
def sheetKey (hash : String → String) (s : Stylesheet) : String :=
  match s.href with
  | some hr => if hr = "" then jsOr s.type "inline" ++ ":" ++ hash s.content else hr
  | none => jsOr s.type "inline" ++ ":" ++ hash s.content

/-- Lookup in the `seen` map (modelled as an association list; a `set` conses
the new binding in front, shadowing the old one). -/
def lookupSeen : List (String × String) → String → Option String
  | [], _ => none
  | (k, v) :: rest, key => if k = key then some v else lookupSeen rest key

/-- The loop of `dedupeStylesheets`: drop an entry when the hash recorded under
its key equals its own hash, otherwise record the hash and keep the entry with
its `hash` field. -/
def dedupeGo (hash : String → String) : List Stylesheet → List (String × String) → List (Stylesheet × String)
  | [], _ => []
  | s :: rest, seen =>
      let h := hash s.content
      let key := sheetKey hash s
      match lookupSeen seen key with
      | some prev =>
          if prev = h then dedupeGo hash rest seen
          else (s, h) :: dedupeGo hash rest ((key, h) :: seen)
      | none => (s, h) :: dedupeGo hash rest ((key, h) :: seen)

/-- The `seen` map after `dedupeGo` has processed a list of entries. -/
def seenAfter (hash : String → String) : List Stylesheet → List (String × String) → List (String × String)
  | [], seen => seen
  | s :: rest, seen =>
      let h := hash s.content
      let key := sheetKey hash s
      match lookupSeen seen key with
      | some prev =>
          if prev = h then seenAfter hash rest seen
          else seenAfter hash rest ((key, h) :: seen)
      | none => seenAfter hash rest ((key, h) :: seen)

/-- Translation of `dedupeStylesheets` in `session-service.ts` (the `hash`
parameter models `createHash("sha256")...digest("hex")`; entries of
`payload.stylesheets` that are not objects are skipped by the code and are not
representable here). -/
def dedupeStylesheets (hash : String → String) (payload : StylesPayload) (now : String) :
    NormalizedStyles :=
  { capturedAt := payload.capturedAt.getD now
    stylesheets := dedupeGo hash payload.stylesheets []
    computedStyles := payload.computedStyles }

/-- Hash of the most recently retained entry with the given key. -/
def lastKeyedHash (hash : String → String) : List (Stylesheet × String) → String → Option String
  | [], _ => none
  | e :: rest, key =>
      match lastKeyedHash hash rest key with
      | some h => some h
      | none => if sheetKey hash e.1 = key then some e.2 else none

/-- Deduplication processes an appended suffix against the `seen` map left by
the prefix. -/
theorem dedupeGo_append (hash : String → String) (l2 : List Stylesheet) :
    ∀ (l : List Stylesheet) (seen : List (String × String)),
    dedupeGo hash (l ++ l2) seen
      = dedupeGo hash l seen ++ dedupeGo hash l2 (seenAfter hash l seen) := by
  intro l
  induction l with
  | nil =>
      intro seen
      simp [dedupeGo, seenAfter]
  | cons s rest ih =>
      intro seen
      simp only [List.cons_append, dedupeGo, seenAfter]
      rcases hl : lookupSeen seen (sheetKey hash s) with _ | prev
      · simp [ih]
      · by_cases hp : prev = hash s.content
        · simp [hp, ih]
        · simp [hp, ih]

/-- The `seen` map records, for each key, exactly the hash of the most
recently retained entry with that key (falling back to the initial map). -/
theorem lookupSeen_seenAfter (hash : String → String) :
    ∀ (l : List Stylesheet) (seen : List (String × String)) (key : String),
    lookupSeen (seenAfter hash l seen) key
      = match lastKeyedHash hash (dedupeGo hash l seen) key with
        | some h => some h
        | none => lookupSeen seen key := by
  intro l
  induction l with
  | nil =>
      intro seen key
      simp [seenAfter, dedupeGo, lastKeyedHash]
  | cons s rest ih =>
      intro seen key
      simp only [seenAfter, dedupeGo]
      rcases hl : lookupSeen seen (sheetKey hash s) with _ | prev
      · rw [ih]
        rcases hlast : lastKeyedHash hash
            (dedupeGo hash rest ((sheetKey hash s, hash s.content) :: seen)) key with _ | hh
        · simp only [lastKeyedHash, hlast, lookupSeen]
          by_cases hk : sheetKey hash s = key
          · simp [hk]
          · simp [hk]
        · simp [lastKeyedHash, hlast]
      · by_cases hp : prev = hash s.content
        · simp only [hp, if_pos rfl]
          exact ih seen key
        · simp only [if_neg hp]
          rw [ih]
          rcases hlast : lastKeyedHash hash
              (dedupeGo hash rest ((sheetKey hash s, hash s.content) :: seen)) key with _ | hh
          · simp only [lastKeyedHash, hlast, lookupSeen]
            by_cases hk : sheetKey hash s = key
            · simp [hk]
            · simp [hk]
          · simp [lastKeyedHash, hlast]

/-- C5 counterexample: the three entries share the href key "a" and the first
and third have identical content (hence identical hash), yet all three are
retained — the third is compared only against the hash of the *most recently*
retained entry under the key (the second, with hash of "y"), so it is not
dropped, refuting "an entry whose content hash is identical to a prior entry
under the same key is dropped". -/
theorem c5_counterexample_earlier_entry :
    (dedupeStylesheets (fun s => s)
        { stylesheets := [{ href := some "a", type := none, content := "x" },
                          { href := some "a", type := none, content := "y" },
                          { href := some "a", type := none, content := "x" }]
          computedStyles := [], capturedAt := some "t" } "now").stylesheets
      = [({ href := some "a", type := none, content := "x" }, "x"),
         ({ href := some "a", type := none, content := "y" }, "y"),
         ({ href := some "a", type := none, content := "x" }, "x")] ∧
    sheetKey (fun s => s) { href := some "a", type := none, content := "x" }
      = sheetKey (fun s => s) { href := some "a", type := none, content := "y" } := by
  constructor <;> decide

/-- C5 (amended): styles finalization deduplicates the stylesheets list keyed
by href when that is a truthy string, else by declared type + content hash;
an entry is dropped exactly when its content hash equals the hash of the
*most recently retained* prior entry under the same key; two adjacent entries
with identical href and identical content hash collapse to one entry; two
entries with different hrefs are both retained even if their content is
identical; computed-style entries are retained unmodified and the result
carries the capture timestamp. -/
theorem c5_styles_dedupe (hash : String → String) (payload : StylesPayload) (now : String) :
    (dedupeStylesheets hash payload now).computedStyles = payload.computedStyles ∧
    (dedupeStylesheets hash payload now).capturedAt = payload.capturedAt.getD now ∧
    (dedupeStylesheets hash payload now).stylesheets = dedupeGo hash payload.stylesheets [] ∧
    (∀ (l : List Stylesheet) (s : Stylesheet),
      dedupeGo hash (l ++ [s]) []
        = dedupeGo hash l [] ++
            (match lastKeyedHash hash (dedupeGo hash l []) (sheetKey hash s) with
             | some prev => if prev = hash s.content then [] else [(s, hash s.content)]
             | none => [(s, hash s.content)])) ∧
    (∀ (s t : Stylesheet) (hr : String), s.href = some hr → t.href = some hr → hr ≠ "" →
      hash s.content = hash t.content →
      dedupeGo hash [s, t] [] = [(s, hash s.content)]) ∧
    (∀ (s t : Stylesheet) (hrs hrt : String), s.href = some hrs → t.href = some hrt →
      hrs ≠ "" → hrt ≠ "" → hrs ≠ hrt →
      dedupeGo hash [s, t] [] = [(s, hash s.content), (t, hash t.content)]) := by
  refine ⟨rfl, rfl, rfl, ?_, ?_, ?_⟩
  · intro l s
    rw [dedupeGo_append hash [s] l []]
    congr 1
    simp only [dedupeGo]
    rw [lookupSeen_seenAfter hash l [] (sheetKey hash s)]
    rcases hlast : lastKeyedHash hash (dedupeGo hash l []) (sheetKey hash s) with _ | prev
    · simp [lookupSeen]
    · by_cases hp : prev = hash s.content
      · simp [hp]
      · simp [hp]
  · intro s t hr hs ht hne hh
    have hks : sheetKey hash s = hr := by
      simp [sheetKey, hs, hne]
    have hkt : sheetKey hash t = hr := by
      simp [sheetKey, ht, hne]
    simp [dedupeGo, lookupSeen, hks, hkt, hh]
  · intro s t hrs hrt hs ht hnes hnet hne
    have hks : sheetKey hash s = hrs := by
      simp [sheetKey, hs, hnes]
    have hkt : sheetKey hash t = hrt := by
      simp [sheetKey, ht, hnet]
    simp [dedupeGo, lookupSeen, hks, hkt, hne]

/-- C5 witness: two entries with the same href `"a"` and identical content
collapse to one, by the amended theorem applied at a concrete payload. -/
theorem c5_styles_dedupe_witness :
    ({ href := some "a", type := none, content := "x" } : Stylesheet).href = some "a" ∧
    ("a" : String) ≠ "" ∧
    dedupeGo (fun s => s)
        [{ href := some "a", type := none, content := "x" },
         { href := some "a", type := some "text/css", content := "x" }] []
      = [({ href := some "a", type := none, content := "x" }, "x")] :=
  ⟨rfl, by decide,
    (c5_styles_dedupe (fun s => s)
        { stylesheets := [], computedStyles := [], capturedAt := none } "now").2.2.2.2.1
      { href := some "a", type := none, content := "x" }
      { href := some "a", type := some "text/css", content := "x" }
      "a" rfl rfl (by decide) rfl⟩

/-- Character-list prefix test. -/
def lstartsWith : List Char → List Char → Bool
  | _, [] => true
  | [], _ :: _ => false
  | a :: as, b :: bs => a == b && lstartsWith as bs

/-- JS `String.prototype.startsWith`. -/
def strStartsWith (s pre : String) : Bool := lstartsWith s.data pre.data

/-- Substring occurrence on character lists. -/
def containsList (sub : List Char) : List Char → Bool
  | [] => lstartsWith [] sub
  | a :: as => lstartsWith (a :: as) sub || containsList sub as

/-- JS `String.prototype.includes`. -/
def strContains (s sub : String) : Bool := containsList sub.data s.data

/-- JS `x || y` on two optional strings (absent and `""` are falsy). -/
def jsOrOpt : Option String → Option String → Option String
  | some v, d => if v = "" then d else some v
  | none, d => d

/-- Asset candidate (`AssetCandidate`): `url := none` models a candidate that
is `null`/missing or whose `url` field is not a string — the loop `continue`s
over those without a manifest entry.  `descriptor` is opaque. -/
structure AssetCandidate where
  url : Option String
  type : Option String
  descriptor : Option String
deriving DecidableEq

/-- Manifest entry status. -/
inductive AssetStatus where
  | downloaded | skipped | failed
deriving DecidableEq

/-- One entry of the asset manifest (`AssetManifestEntry`). -/
structure AssetManifestEntry where
  originalUrl : String
  status : AssetStatus
  localPath : Option String
  contentType : Option String
  hash : Option String
  bytes : Option Int
  type : Option String
  descriptor : Option String
  error : Option String
deriving DecidableEq

/-- Outcome of `fetch(resolvedUrl)` together with reading the body and writing
the file: `ok` is a 2xx response (content type and body bytes), `httpFail` a
non-ok HTTP status, `exc` a thrown network or I/O error with its message. -/
inductive FetchOutcome where
  | ok (contentType : Option String) (body : List Char)
  | httpFail (status : Int)
  | exc (msg : String)
deriving DecidableEq

/-- Translation of `inferExtension`: prefer the extension of the URL's
pathname (`pathExtname` models `path.extname(new URL(u).pathname)`, `none`
meaning the URL failed to parse), else map the content-type's subtype through
the fixed lookup chain (`woff2` before `woff`). -/
def inferExtension (pathExtname : String → Option String) (urlString : String)
    (contentType : Option String) : String :=
  let fromCt :=
    match contentType with
    | none => ""
    | some ct =>
        match (ct.splitOn "/").drop 1 with
        | [] => ""
        | subtype :: _ =>
            if subtype = "" then ""
            else if strContains subtype "svg" then ".svg"
            else if strContains subtype "png" then ".png"
            else if strContains subtype "jpeg" || strContains subtype "jpg" then ".jpg"
            else if strContains subtype "webp" then ".webp"
            else if strContains subtype "gif" then ".gif"
            else if strContains subtype "woff2" then ".woff2"
            else if strContains subtype "woff" then ".woff"
            else if strContains subtype "ttf" then ".ttf"
            else if strContains subtype "otf" then ".otf"
            else ""
  match pathExtname urlString with
  | some ext => if ext ≠ "" then ext else fromCt
  | none => fromCt

/-- Manifest entry for a successfully downloaded asset: the body is hashed
(`hashFn` models sha256-hex), written under `assets/` using the hash plus the
inferred extension as filename, and recorded with content type and byte size. -/
def downloadedEntry (hashFn : List Char → String) (pathExtname : String → Option String)
    (c : AssetCandidate) (resolvedUrl : String) (contentType : Option String)
    (body : List Char) : AssetManifestEntry :=
  let hash := hashFn body
  let extension := inferExtension pathExtname resolvedUrl contentType
  let fileName := if extension ≠ "" then hash ++ extension else hash
  { originalUrl := resolvedUrl, status := .downloaded
    localPath := some ("assets" ++ "/" ++ fileName)
    contentType := contentType, hash := some hash, bytes := some (body.length : Int)
    type := c.type, descriptor := c.descriptor, error := none }

/-- Manifest entry recording a skip or failure. -/
def statusEntry (c : AssetCandidate) (url : String) (status : AssetStatus)
    (msg : String) : AssetManifestEntry :=
  { originalUrl := url, status := status, localPath := none, contentType := none
    hash := none, bytes := none, type := c.type, descriptor := c.descriptor
    error := some msg }

/-- The candidate loop of `processAssetPayload`.  `resolve` models
`new URL(candidate.url, baseHref).toString()` (`none` = the constructor
threw), `fetchIo` the network/filesystem effects per URL.  Returns the
manifest entries in candidate order together with the list of URLs actually
passed to `fetch`, in order (instrumentation recording which candidates are
fetched). -/
def processCandidates (resolve : String → Option String → Option String)
    (fetchIo : String → FetchOutcome) (hashFn : List Char → String)
    (pathExtname : String → Option String) (base : Option String) :
    List AssetCandidate → List String → List AssetManifestEntry × List String
  | [], _ => ([], [])
  | c :: rest, seen =>
      match c.url with
      | none => processCandidates resolve fetchIo hashFn pathExtname base rest seen
      | some u =>
          match resolve u base with
          | none =>
              let r := processCandidates resolve fetchIo hashFn pathExtname base rest seen
              (statusEntry c u .failed "Invalid URL" :: r.1, r.2)
          | some ru =>
              if strStartsWith ru "data:" then
                let r := processCandidates resolve fetchIo hashFn pathExtname base rest seen
                (statusEntry c ru .skipped "Data URLs are not downloaded" :: r.1, r.2)
              else if ru ∈ seen then
                let r := processCandidates resolve fetchIo hashFn pathExtname base rest seen
                (statusEntry c ru .skipped "Duplicate URL" :: r.1, r.2)
              else
                let entry :=
                  match fetchIo ru with
                  | .ok ct body => downloadedEntry hashFn pathExtname c ru ct body
                  | .httpFail st => statusEntry c ru .failed ("HTTP " ++ toString st)
                  | .exc m => statusEntry c ru .failed m
                let r := processCandidates resolve fetchIo hashFn pathExtname base rest (ru :: seen)
                (entry :: r.1, ru :: r.2)

/-- Parsed `assets` payload. -/
structure AssetPayload where
  capturedAt : Option String
  documentUrl : Option String
  baseHref : Option String
  assets : List AssetCandidate
deriving DecidableEq

/-- Result of `processAssetPayload` plus the fetch instrumentation. -/
structure AssetManifest where
  capturedAt : Option String
  documentUrl : Option String
  baseHref : Option String
  assets : List AssetManifestEntry
  fetched : List String

/-- Translation of `processAssetPayload`: the base href is
`payload.baseHref || payload.documentUrl`, candidates are processed in order
against an initially empty `seen` set, and the payload metadata is echoed. -/
def processAssetPayload (resolve : String → Option String → Option String)
    (fetchIo : String → FetchOutcome) (hashFn : List Char → String)
    (pathExtname : String → Option String) (payload : AssetPayload) : AssetManifest :=
  let base := jsOrOpt payload.baseHref payload.documentUrl
  let r := processCandidates resolve fetchIo hashFn pathExtname base payload.assets []
  { capturedAt := payload.capturedAt
    documentUrl := payload.documentUrl
    baseHref := jsOrOpt payload.baseHref payload.documentUrl
    assets := r.1
    fetched := r.2 }

/-- Declarative per-candidate description following the claim's words: a
candidate without a url string yields no entry; one that fails to resolve is
failed with "Invalid URL"; a resolved `data:` URL is skipped; a URL some
earlier candidate already resolved to (`prior`) is skipped as a duplicate;
otherwise the fetch outcome decides between a downloaded entry and a failed
entry carrying the HTTP status or the exception message. -/
def specAssetEntry (fetchIo : String → FetchOutcome) (hashFn : List Char → String)
    (pathExtname : String → Option String)
    (resolved : Option String) (prior : List String) (c : AssetCandidate) :
    Option AssetManifestEntry :=
  match c.url with
  | none => none
  | some u =>
      match resolved with
      | none => some (statusEntry c u .failed "Invalid URL")
      | some ru =>
          if strStartsWith ru "data:" then
            some (statusEntry c ru .skipped "Data URLs are not downloaded")
          else if ru ∈ prior then
            some (statusEntry c ru .skipped "Duplicate URL")
          else
            some (match fetchIo ru with
              | .ok ct body => downloadedEntry hashFn pathExtname c ru ct body
              | .httpFail st => statusEntry c ru .failed ("HTTP " ++ toString st)
              | .exc m => statusEntry c ru .failed m)

/-- Declarative manifest: each candidate contributes its `specAssetEntry`
computed against the set of absolute non-`data:` URLs earlier candidates
resolved to. -/
def specAssetManifest (resolve : String → Option String → Option String)
    (fetchIo : String → FetchOutcome) (hashFn : List Char → String)
    (pathExtname : String → Option String) (base : Option String) :
    List AssetCandidate → List String → List AssetManifestEntry
  | [], _ => []
  | c :: rest, prior =>
      let entryOpt := specAssetEntry fetchIo hashFn pathExtname
        (c.url.bind (fun u => resolve u base)) prior c
      let prior2 :=
        match c.url.bind (fun u => resolve u base) with
        | some ru => if strStartsWith ru "data:" then prior else prior ++ [ru]
        | none => prior
      match entryOpt with
      | some e => e :: specAssetManifest resolve fetchIo hashFn pathExtname base rest prior2
      | none => specAssetManifest resolve fetchIo hashFn pathExtname base rest prior2

/-- First-occurrence deduplication relative to an already-seen set. -/
def dedupFirstAux : List String → List String → List String
  | _, [] => []
  | seen, x :: xs =>
      if x ∈ seen then dedupFirstAux seen xs
      else x :: dedupFirstAux (x :: seen) xs

/-- The candidate loop computes exactly the declarative manifest, for any
`seen` set and `prior` list with the same members. -/
theorem processCandidates_eq_spec (resolve : String → Option String → Option String)
    (fetchIo : String → FetchOutcome) (hashFn : List Char → String)
    (pathExtname : String → Option String) (base : Option String) :
    ∀ (cs : List AssetCandidate) (seen prior : List String),
    (∀ u, u ∈ seen ↔ u ∈ prior) →
    (processCandidates resolve fetchIo hashFn pathExtname base cs seen).1
      = specAssetManifest resolve fetchIo hashFn pathExtname base cs prior := by
  intro cs
  induction cs with
  | nil =>
      intro seen prior _
      rfl
  | cons c rest ih =>
      intro seen prior hiff
      rcases hu : c.url with _ | u
      · simp only [processCandidates, specAssetManifest, specAssetEntry, hu, Option.none_bind]
        exact ih seen prior hiff
      · rcases hr : resolve u base with _ | ru
        · simp only [processCandidates, specAssetManifest, specAssetEntry, hu, hr,
            Option.some_bind]
          simp [ih seen prior hiff]
        · by_cases hd : strStartsWith ru "data:"
          · simp only [processCandidates, specAssetManifest, specAssetEntry, hu, hr,
              Option.some_bind, hd]
            simp [ih seen prior hiff]
          · by_cases hmem : ru ∈ prior
            · have hseen : ru ∈ seen := (hiff ru).2 hmem
              have hiff3 : ∀ v, v ∈ seen ↔ v ∈ prior ++ [ru] := by
                intro v
                simp only [List.mem_append, List.mem_singleton]
                constructor
                · intro hv
                  exact Or.inl ((hiff v).1 hv)
                · rintro (hv | rfl)
                  · exact (hiff v).2 hv
                  · exact hseen
              simp only [processCandidates, specAssetManifest, specAssetEntry, hu, hr,
                Option.some_bind, hd]
              simp [hmem, hseen, ih seen _ hiff3]
            · have hseen : ru ∉ seen := fun h => hmem ((hiff ru).1 h)
              have hiff2 : ∀ v, v ∈ ru :: seen ↔ v ∈ prior ++ [ru] := by
                intro v
                simp [List.mem_cons, List.mem_append, hiff v, or_comm]
              simp only [processCandidates, specAssetManifest, specAssetEntry, hu, hr,
                Option.some_bind, hd]
              simp [hmem, hseen, ih _ _ hiff2]

/-- One manifest entry per candidate carrying a url string. -/
theorem processCandidates_length (resolve : String → Option String → Option String)
    (fetchIo : String → FetchOutcome) (hashFn : List Char → String)
    (pathExtname : String → Option String) (base : Option String) :
    ∀ (cs : List AssetCandidate) (seen : List String),
    (processCandidates resolve fetchIo hashFn pathExtname base cs seen).1.length
      = (cs.filter (fun c => c.url.isSome)).length := by
  intro cs
  induction cs with
  | nil =>
      intro seen
      rfl
  | cons c rest ih =>
      intro seen
      rcases hu : c.url with _ | u
      · simp [processCandidates, hu, ih]
      · rcases hr : resolve u base with _ | ru
        · simp [processCandidates, hu, hr, ih]
        · by_cases hd : strStartsWith ru "data:"
          · simp [processCandidates, hu, hr, hd, ih]
          · by_cases hmem : ru ∈ seen
            · simp [processCandidates, hu, hr, hd, hmem, ih]
            · simp [processCandidates, hu, hr, hd, hmem, ih]

/-- The URLs handed to `fetch` are the first occurrences of the non-`data:`
resolved URLs, in candidate order. -/
theorem processCandidates_fetched (resolve : String → Option String → Option String)
    (fetchIo : String → FetchOutcome) (hashFn : List Char → String)
    (pathExtname : String → Option String) (base : Option String) :
    ∀ (cs : List AssetCandidate) (seen : List String),
    (processCandidates resolve fetchIo hashFn pathExtname base cs seen).2
      = dedupFirstAux seen
          (((cs.filterMap AssetCandidate.url).filterMap (fun u => resolve u base)).filter
            (fun r => !(strStartsWith r "data:"))) := by
  intro cs
  induction cs with
  | nil =>
      intro seen
      rfl
  | cons c rest ih =>
      intro seen
      rcases hu : c.url with _ | u
      · simp [processCandidates, hu, ih, List.filterMap_cons]
      · rcases hr : resolve u base with _ | ru
        · simp [processCandidates, hu, hr, ih, List.filterMap_cons]
        · by_cases hd : strStartsWith ru "data:"
          · simp [processCandidates, hu, hr, hd, ih, List.filterMap_cons]
          · by_cases hmem : ru ∈ seen
            · simp [processCandidates, hu, hr, hd, hmem, ih, List.filterMap_cons,
                dedupFirstAux]
            · simp [processCandidates, hu, hr, hd, hmem, ih, List.filterMap_cons,
                dedupFirstAux]

/-- First-occurrence deduplication yields no duplicates and nothing from the
already-seen set. -/
theorem dedupFirstAux_nodup_notin :
    ∀ (xs seen : List String),
    (dedupFirstAux seen xs).Nodup ∧ ∀ x ∈ dedupFirstAux seen xs, x ∉ seen := by
  intro xs
  induction xs with
  | nil =>
      intro seen
      simp [dedupFirstAux]
  | cons x xs ih =>
      intro seen
      by_cases hx : x ∈ seen
      · simpa [dedupFirstAux, hx] using ih seen
      · obtain ⟨hnd, hnotin⟩ := ih (x :: seen)
        have hunf : dedupFirstAux seen (x :: xs) = x :: dedupFirstAux (x :: seen) xs := by
          simp [dedupFirstAux, hx]
        refine ⟨?_, ?_⟩
        · rw [hunf]
          exact List.nodup_cons.2
            ⟨fun hc => hnotin x hc (List.mem_cons_self x seen), hnd⟩
        · intro y hy
          rw [hunf] at hy
          rcases List.mem_cons.1 hy with rfl | hy
          · exact hx
          · intro hyseen
            exact hnotin y hy (List.mem_cons_of_mem x hyseen)

/-- Members of a first-occurrence deduplication come from the input list. -/
theorem dedupFirstAux_mem :
    ∀ (xs seen : List String) (x : String), x ∈ dedupFirstAux seen xs → x ∈ xs := by
  intro xs
  induction xs with
  | nil =>
      intro seen x hx
      simp [dedupFirstAux] at hx
  | cons y xs ih =>
      intro seen x hx
      by_cases hy : y ∈ seen
      · rw [show dedupFirstAux seen (y :: xs) = dedupFirstAux seen xs from by
          simp [dedupFirstAux, hy]] at hx
        exact List.mem_cons_of_mem y (ih seen x hx)
      · rw [show dedupFirstAux seen (y :: xs) = y :: dedupFirstAux (y :: seen) xs from by
          simp [dedupFirstAux, hy]] at hx
        rcases List.mem_cons.1 hx with rfl | hx
        · exact List.mem_cons_self x xs
        · exact List.mem_cons_of_mem y (ih (y :: seen) x hx)

/-- C6: the resolver produces exactly one manifest entry per candidate with a
url string, and the manifest coincides with the declarative per-candidate
description (`specAssetManifest`): unresolvable candidates fail with
"Invalid URL", resolved `data:` URLs are skipped, a URL an earlier candidate
already resolved to is skipped as "Duplicate URL", and otherwise the fetch
outcome — including a thrown exception, which never aborts the remaining
candidates — decides between one downloaded and one failed entry.  Moreover
the URLs actually fetched are exactly the first occurrences of the non-`data:`
resolved URLs: each is fetched at most once and `data:` URLs are never
fetched. -/
theorem c6_asset_resolution (resolve : String → Option String → Option String)
    (fetchIo : String → FetchOutcome) (hashFn : List Char → String)
    (pathExtname : String → Option String) (payload : AssetPayload) :
    (processAssetPayload resolve fetchIo hashFn pathExtname payload).assets
      = specAssetManifest resolve fetchIo hashFn pathExtname
          (jsOrOpt payload.baseHref payload.documentUrl) payload.assets [] ∧
    (processAssetPayload resolve fetchIo hashFn pathExtname payload).assets.length
      = (payload.assets.filter (fun c => c.url.isSome)).length ∧
    (processAssetPayload resolve fetchIo hashFn pathExtname payload).fetched
      = dedupFirstAux []
          (((payload.assets.filterMap AssetCandidate.url).filterMap
              (fun u => resolve u (jsOrOpt payload.baseHref payload.documentUrl))).filter
            (fun r => !(strStartsWith r "data:"))) ∧
    (processAssetPayload resolve fetchIo hashFn pathExtname payload).fetched.Nodup ∧
    (∀ u ∈ (processAssetPayload resolve fetchIo hashFn pathExtname payload).fetched,
      strStartsWith u "data:" = false) := by
  refine ⟨?_, ?_, ?_, ?_, ?_⟩
  · exact processCandidates_eq_spec resolve fetchIo hashFn pathExtname _ payload.assets [] []
      (fun u => Iff.rfl)
  · exact processCandidates_length resolve fetchIo hashFn pathExtname _ payload.assets []
  · exact processCandidates_fetched resolve fetchIo hashFn pathExtname _ payload.assets []
  · rw [show (processAssetPayload resolve fetchIo hashFn pathExtname payload).fetched
        = (processCandidates resolve fetchIo hashFn pathExtname
            (jsOrOpt payload.baseHref payload.documentUrl) payload.assets []).2 from rfl]
    rw [processCandidates_fetched]
    exact (dedupFirstAux_nodup_notin _ []).1
  · intro u hu
    rw [show (processAssetPayload resolve fetchIo hashFn pathExtname payload).fetched
        = (processCandidates resolve fetchIo hashFn pathExtname
            (jsOrOpt payload.baseHref payload.documentUrl) payload.assets []).2 from rfl,
      processCandidates_fetched] at hu
    have hmem := dedupFirstAux_mem _ [] u hu
    have := List.mem_filter.1 hmem
    simpa using this.2

/-- C6 witness: two candidates resolving to the same URL under an
exception-throwing fetch — the failure is recorded per-entry, the duplicate is
skipped, and the second candidate's data does not abort the batch; the
concrete fetched URL is not a `data:` URL, by the theorem applied at this
input. -/
theorem c6_asset_resolution_witness :
    ("http://x" ∈ (processAssetPayload (fun u _ => some u) (fun _ => .exc "boom")
        (fun _ => "h") (fun _ => none)
        { capturedAt := none, documentUrl := some "http://d", baseHref := none
          assets := [{ url := some "http://x", type := none, descriptor := none },
                     { url := some "http://x", type := none, descriptor := none }] }).fetched) ∧
    strStartsWith "http://x" "data:" = false :=
  ⟨by decide,
    (c6_asset_resolution (fun u _ => some u) (fun _ => .exc "boom")
      (fun _ => "h") (fun _ => none)
      { capturedAt := none, documentUrl := some "http://d", baseHref := none
        assets := [{ url := some "http://x", type := none, descriptor := none },
                   { url := some "http://x", type := none, descriptor := none }] }).2.2.2.2
      "http://x" (by decide)⟩

/-- A captured DOM node as consumed by `ComponentMapper`: numeric `nodeType`
(1 = element, 3 = text), optional `tagName`, the `attributes` array of
name/value pairs, `textContent` (`""` when absent — JS truthiness), `nodeId`
(`""` when absent) and the `childNodes` array. -/
inductive DomNode : Type where
  | mk (nodeType : Int) (tagName : Option String) (attributes : List (String × String))
      (textContent : String) (nodeId : String) (childNodes : List DomNode)

/-- Field accessor. -/
def DomNode.nodeType : DomNode → Int
  | .mk t _ _ _ _ _ => t

/-- Field accessor. -/
def DomNode.tagName : DomNode → Option String
  | .mk _ t _ _ _ _ => t

/-- Field accessor. -/
def DomNode.attributes : DomNode → List (String × String)
  | .mk _ _ a _ _ _ => a

/-- Field accessor. -/
def DomNode.textContent : DomNode → String
  | .mk _ _ _ t _ _ => t

/-- Field accessor. -/
def DomNode.nodeId : DomNode → String
  | .mk _ _ _ _ i _ => i

/-- Field accessor. -/
def DomNode.childNodes : DomNode → List DomNode
  | .mk _ _ _ _ _ c => c

/-- JS whitespace as far as the captured strings need it. -/
def isJsSpace (c : Char) : Bool :=
  c == ' ' || c == '\t' || c == '\n' || c == '\r' || c == '\x0b' || c == '\x0c'

/-- JS `String.prototype.toLowerCase` (ASCII case mapping). -/
def jsToLower (s : String) : String := String.mk (s.data.map Char.toLower)

/-- JS `String.prototype.trim`. -/
def jsTrim (s : String) : String :=
  String.mk (((s.data.dropWhile isJsSpace).reverse.dropWhile isJsSpace).reverse)

/-- Detector result before the node data is attached (`Partial<ComponentMatch>`
returned by the individual detectors).  Every confidence the mapper computes
is a sum of decimal-tenth literals capped at 1, and no threshold comparison in
the source can be flipped by float rounding, so confidences are modelled
exactly as integers in tenths (`8` stands for `0.8`, the cap `1` is `10`). -/
structure PartialMatch where
  shadcnComponent : String
  confidence : Int
  reasoning : List String
deriving DecidableEq

/-- A classified component (`ComponentMatch`; the unused optional `children`
field is never populated by the code and omitted).  `confidence` is in tenths,
as in `PartialMatch`. -/
structure ComponentMatch where
  nodeId : String
  tagName : String
  className : String
  shadcnComponent : String
  confidence : Int
  attributes : List (String × String)
  reasoning : List String
deriving DecidableEq

/-- Translation of `getClassString`: the value of the first `class` attribute,
else `""`. -/
def getClassString (n : DomNode) : String :=
  match n.attributes.find? (fun a => a.1 == "class") with
  | some a => a.2
  | none => ""

/-- One assignment `attributes[attr.name] = attr.value` on the accumulating
object: later values overwrite, insertion order is kept. -/
def upsertAttr : List (String × String) → String × String → List (String × String)
  | [], kv => [kv]
  | (k, v) :: rest, kv =>
      if k == kv.1 then (k, kv.2) :: rest else (k, v) :: upsertAttr rest kv

/-- Translation of `getAttributesMap`. -/
def getAttributesMap (n : DomNode) : List (String × String) :=
  n.attributes.foldl upsertAttr []

/-- Reading `attributes[name]` off the attribute map. -/
def getAttr (n : DomNode) (name : String) : Option String :=
  ((getAttributesMap n).find? (fun a => a.1 == name)).map (fun a => a.2)

/-- JS `attributes[name] === v`. -/
def attrEq (n : DomNode) (name v : String) : Bool :=
  getAttr n name == some v

/-- JS truthiness of `attributes[name]` (present and non-empty). -/
def attrTruthy (n : DomNode) (name : String) : Bool :=
  match getAttr n name with
  | some v => v != ""
  | none => false

/-- Translation of `getTextContent`: the node's own `textContent` trimmed when
truthy, else the trimmed concatenation of the direct text-node children's
trimmed contents separated by spaces. -/
def getTextContent (n : DomNode) : String :=
  if n.textContent != "" then jsTrim n.textContent
  else
    jsTrim (n.childNodes.foldl
      (fun acc c =>
        if c.nodeType == 3 && c.textContent != "" then acc ++ jsTrim c.textContent ++ " "
        else acc) "")

/-- Translation of `hasChildWithTag` (direct children only). -/
def hasChildWithTag (n : DomNode) (tagName : String) : Bool :=
  n.childNodes.any (fun c =>
    match c.tagName with
    | some t => jsToLower t == jsToLower tagName
    | none => false)

/-- Translation of `hasChildWithClass` (direct children only). -/
def hasChildWithClass (n : DomNode) (classNames : List String) : Bool :=
  n.childNodes.any (fun c =>
    classNames.any (fun cls => strContains (jsToLower (getClassString c)) cls))

/-- One `if (cond) { confidence += delta; reasoning.push(reason) }` step. -/
def addSignal (cond : Bool) (delta : Int) (reason : String) :
    Int × List String → Int × List String
  | (c, r) => if cond then (c + delta, r ++ [reason]) else (c, r)

/-- JS `parseInt` (base 10): optional sign then leading decimal digits of the
trimmed string; `none` models `NaN`. -/
def parseIntJS (s : String) : Option Int :=
  let digitsVal : List Char → Option Nat := fun cs =>
    let ds := cs.takeWhile (fun c => c.isDigit)
    if ds.isEmpty then none
    else some (ds.foldl (fun acc c => acc * 10 + (c.toNat - 48)) 0)
  match (jsTrim s).data with
  | '-' :: rest => (digitsVal rest).map (fun v => -(v : Int))
  | '+' :: rest => (digitsVal rest).map (fun v => (v : Int))
  | cs => (digitsVal cs).map (fun v => (v : Int))

/-- Translation of `detectButton`. -/
def detectButton (n : DomNode) (tagName className text : String) : Option PartialMatch :=
  let s1 := addSignal (tagName == "button") 8 "HTML button element" (0, [])
  let s2 := addSignal (attrEq n "type" "submit") 3 "Submit type button" s1
  let matched := ["btn", "button", "cta", "action", "primary", "secondary"].filter
    (fun cls => strContains (jsToLower className) cls)
  let s3 :=
    if matched.length > 0 then
      (s2.1 + 4 * (matched.length : Int),
        s2.2 ++ ["Button-related classes: " ++ String.intercalate ", " matched])
    else s2
  let s4 := addSignal (attrEq n "role" "button") 6 "Button role attribute" s3
  let s5 := addSignal
    ((tagName == "div" || tagName == "span" || tagName == "a")
      && (attrTruthy n "onclick" || strContains className "click"))
    3 "Clickable element with button-like behavior" s4
  let s6 := addSignal
    ((["submit", "save", "cancel", "delete", "edit", "download", "upload", "sign",
        "log"]).any (fun k => strContains (jsToLower text) k))
    2 "Contains button-like text" s5
  if s6.1 ≥ 3 then
    let variant :=
      if strContains className "primary" || strContains className "main" then "primary"
      else if strContains className "secondary" || strContains className "outline" then
        "secondary"
      else if strContains className "destructive" || strContains className "danger" then
        "destructive"
      else if strContains className "ghost" then "ghost"
      else "default"
    some { shadcnComponent := "Button (" ++ variant ++ ")"
           confidence := min s6.1 10, reasoning := s6.2 }
  else none

/-- Translation of `detectCard`. -/
def detectCard (n : DomNode) (tagName className : String) : Option PartialMatch :=
  let matched := ["card", "panel", "widget", "tile", "box"].filter
    (fun cls => strContains (jsToLower className) cls)
  let s1 :=
    if matched.length > 0 then
      ((0 : Int) + 6, ["Card-related classes: " ++ String.intercalate ", " matched])
    else ((0 : Int), [])
  let s2 := addSignal (tagName == "div" || tagName == "section" || tagName == "article")
    2 "Container element suitable for card" s1
  let s3 := addSignal
    (hasChildWithClass n ["header", "title", "head"]
      || hasChildWithClass n ["body", "content", "main"]
      || hasChildWithClass n ["footer", "actions", "buttons"])
    3 "Contains card-like structure (header/body/footer)" s2
  if s3.1 ≥ 3 then
    some { shadcnComponent := "Card", confidence := min s3.1 10, reasoning := s3.2 }
  else none

/-- Translation of `detectNavigation`. -/
def detectNavigation (n : DomNode) (tagName className : String) : Option PartialMatch :=
  let s1 := addSignal (tagName == "nav") 8 "HTML nav element" (0, [])
  let s2 := addSignal (attrEq n "role" "navigation") 7 "Navigation role attribute" s1
  let matched := ["nav", "navbar", "menu", "breadcrumb", "sidebar", "header"].filter
    (fun cls => strContains (jsToLower className) cls)
  let s3 :=
    if matched.length > 0 then
      (s2.1 + 5, s2.2 ++ ["Navigation classes: " ++ String.intercalate ", " matched])
    else s2
  let s4 := addSignal
    ((tagName == "ul" || tagName == "ol")
      && (hasChildWithTag n "a" || hasChildWithClass n ["link", "nav-item"]))
    4 "List with navigation links" s3
  if s4.1 ≥ 3 then
    let navType :=
      if strContains className "breadcrumb" then "Breadcrumb"
      else if strContains className "sidebar" then "NavigationMenu (sidebar)"
      else if strContains className "navbar" || strContains className "header" then
        "NavigationMenu (main)"
      else "Navigation"
    some { shadcnComponent := navType, confidence := min s4.1 10, reasoning := s4.2 }
  else none

/-- Translation of `detectForm`. -/
def detectForm (n : DomNode) (tagName className : String) : Option PartialMatch :=
  let s1 := addSignal (tagName == "form") 9 "HTML form element" (0, [])
  let s2 := addSignal
    (hasChildWithTag n "input" || hasChildWithTag n "select" || hasChildWithTag n "textarea")
    4 "Contains form input elements" s1
  let matched := ["form", "contact", "signup", "login", "register"].filter
    (fun cls => strContains (jsToLower className) cls)
  let s3 :=
    if matched.length > 0 then
      (s2.1 + 3, s2.2 ++ ["Form-related classes: " ++ String.intercalate ", " matched])
    else s2
  if s3.1 ≥ 3 then
    some { shadcnComponent := "Form", confidence := min s3.1 10, reasoning := s3.2 }
  else none

/-- Translation of `detectInput` (returns from inside each tag branch). -/
def detectInput (n : DomNode) (tagName : String) : Option PartialMatch :=
  if tagName == "input" then
    let inputType :=
      match getAttr n "type" with
      | some v => if v = "" then "text" else v
      | none => "text"
    let component :=
      if inputType == "checkbox" then "Checkbox"
      else if inputType == "radio" then "RadioGroup"
      else if inputType == "range" then "Slider"
      else if inputType == "date" || inputType == "datetime-local" then "DatePicker"
      else if inputType == "file" then "Input (file)"
      else "Input"
    some { shadcnComponent := component, confidence := min ((0 : Int) + 8) 10
           reasoning := ["HTML input element"] }
  else if tagName == "textarea" then
    some { shadcnComponent := "Textarea", confidence := min ((0 : Int) + 8) 10
           reasoning := ["HTML textarea element"] }
  else if tagName == "select" then
    some { shadcnComponent := "Select", confidence := min ((0 : Int) + 8) 10
           reasoning := ["HTML select element"] }
  else none

/-- Translation of `detectBadge`. -/
def detectBadge (n : DomNode) (tagName className text : String) : Option PartialMatch :=
  let matched := ["badge", "tag", "chip", "label", "status"].filter
    (fun cls => strContains (jsToLower className) cls)
  let s1 :=
    if matched.length > 0 then
      ((0 : Int) + 7, ["Badge-related classes: " ++ String.intercalate ", " matched])
    else ((0 : Int), [])
  let s2 := addSignal
    ((tagName == "span" || tagName == "small" || tagName == "div")
      && text.length < 20 && (jsTrim text).length > 0)
    3 "Small element with short text content" s1
  if s2.1 ≥ 4 then
    some { shadcnComponent := "Badge", confidence := min s2.1 10, reasoning := s2.2 }
  else none

/-- Translation of `detectAvatar` (the dimension check runs only for `img`
elements with truthy `width`/`height` attributes; `parseIntJS` models
`parseInt`, a zero or `NaN` dimension is falsy). -/
def detectAvatar (n : DomNode) (tagName className : String) : Option PartialMatch :=
  let s1 :=
    if tagName == "img" then
      let matched := ["avatar", "profile", "user", "photo"].filter
        (fun cls => strContains (jsToLower className) cls)
      let t1 :=
        if matched.length > 0 then
          ((0 : Int) + 8, ["Avatar-related classes: " ++ String.intercalate ", " matched])
        else ((0 : Int), [])
      if attrTruthy n "width" && attrTruthy n "height" then
        let width := parseIntJS ((getAttr n "width").getD "")
        let height := parseIntJS ((getAttr n "height").getD "")
        let squarish :=
          match width, height with
          | some w, some h => w != 0 && h != 0 && (w - h).natAbs ≤ 20
          | _, _ => false
        addSignal squarish 3 "Square-ish image dimensions" t1
      else t1
    else ((0 : Int), [])
  let matched2 := ["avatar", "profile", "user-photo"].filter
    (fun cls => strContains (jsToLower className) cls)
  let s2 :=
    if matched2.length > 0 then
      (s1.1 + 6, s1.2 ++ ["Avatar container classes: " ++ String.intercalate ", " matched2])
    else s1
  if s2.1 ≥ 4 then
    some { shadcnComponent := "Avatar", confidence := min s2.1 10, reasoning := s2.2 }
  else none

/-- Translation of `detectDialog`. -/
def detectDialog (n : DomNode) (tagName className : String) : Option PartialMatch :=
  let s1 := addSignal (tagName == "dialog") 9 "HTML dialog element" (0, [])
  let s2 := addSignal (attrEq n "role" "dialog" || attrEq n "role" "alertdialog")
    8 "Dialog role attribute" s1
  let matched := ["modal", "dialog", "popup", "overlay", "alert"].filter
    (fun cls => strContains (jsToLower className) cls)
  let s3 :=
    if matched.length > 0 then
      (s2.1 + 6, s2.2 ++ ["Dialog-related classes: " ++ String.intercalate ", " matched])
    else s2
  if s3.1 ≥ 4 then
    let dialogType :=
      if strContains className "alert" || attrEq n "role" "alertdialog" then "AlertDialog"
      else "Dialog"
    some { shadcnComponent := dialogType, confidence := min s3.1 10, reasoning := s3.2 }
  else none

/-- Translation of `detectTable`. -/
def detectTable (n : DomNode) (tagName className : String) : Option PartialMatch :=
  let s1 := addSignal (tagName == "table") 9 "HTML table element" (0, [])
  let s2 := addSignal (attrEq n "role" "table" || attrEq n "role" "grid")
    8 "Table/grid role attribute" s1
  let matched := ["table", "grid", "data-table", "datatable"].filter
    (fun cls => strContains (jsToLower className) cls)
  let s3 :=
    if matched.length > 0 then
      (s2.1 + 7, s2.2 ++ ["Table-related classes: " ++ String.intercalate ", " matched])
    else s2
  if s3.1 ≥ 4 then
    some { shadcnComponent := "Table", confidence := min s3.1 10, reasoning := s3.2 }
  else none

/-- Translation of `detectLayout`: three blocks (sheet/drawer, accordion,
tabs), each returning early when its classes matched and the accumulated
confidence clears 0.4; confidence and reasoning accumulate across blocks. -/
def detectLayout (n : DomNode) (tagName className : String) : Option PartialMatch :=
  let sheetMatches := ["sheet", "drawer", "sidebar", "offcanvas"].filter
    (fun cls => strContains (jsToLower className) cls)
  let c1 : Int := if sheetMatches.length > 0 then 0 + 6 else 0
  let r1 : List String :=
    if sheetMatches.length > 0 then
      ["Sheet/drawer classes: " ++ String.intercalate ", " sheetMatches]
    else []
  if sheetMatches.length > 0 ∧ c1 ≥ 4 then
    some { shadcnComponent := "Sheet", confidence := min c1 10, reasoning := r1 }
  else
    let accordionMatches := ["accordion", "collapse", "expand"].filter
      (fun cls => strContains (jsToLower className) cls)
    let c2 : Int := if accordionMatches.length > 0 then c1 + 6 else c1
    let r2 : List String :=
      if accordionMatches.length > 0 then
        r1 ++ ["Accordion classes: " ++ String.intercalate ", " accordionMatches]
      else r1
    if accordionMatches.length > 0 ∧ c2 ≥ 4 then
      some { shadcnComponent := "Accordion", confidence := min c2 10, reasoning := r2 }
    else
      let tabMatches := ["tab", "tabs"].filter (fun cls => strContains (jsToLower className) cls)
      let tabHit := tabMatches.length > 0 || attrEq n "role" "tablist"
      let c3 : Int := if tabHit then c2 + 7 else c2
      let r3 : List String := if tabHit then r2 ++ ["Tab-related elements"] else r2
      if tabHit ∧ c3 ≥ 4 then
        some { shadcnComponent := "Tabs", confidence := min c3 10, reasoning := r3 }
      else none

/-- The fixed detector battery of `detectComponent`, in priority order. -/
def detectorList (n : DomNode) (tagName className text : String) :
    List (Option PartialMatch) :=
  [detectButton n tagName className text,
   detectCard n tagName className,
   detectNavigation n tagName className,
   detectForm n tagName className,
   detectInput n tagName,
   detectBadge n tagName className text,
   detectAvatar n tagName className,
   detectDialog n tagName className,
   detectTable n tagName className,
   detectLayout n tagName className]

/-- The `for (const detector of detectors) { if (result) return ... }` loop:
the first non-null result wins. -/
def firstSome {α : Type} : List (Option α) → Option α
  | [] => none
  | some a :: _ => some a
  | none :: rest => firstSome rest

/-- Attaching the node data to the winning detector's partial result. -/
def buildMatch (n : DomNode) (tagName className : String) (p : PartialMatch) :
    ComponentMatch :=
  { nodeId := if n.nodeId != "" then n.nodeId else "unknown"
    tagName := tagName, className := className
    shadcnComponent := p.shadcnComponent, confidence := p.confidence
    attributes := getAttributesMap n, reasoning := p.reasoning }

/-- The `node.tagName?.toLowerCase() || ""` computation of `detectComponent`. -/
def nodeTagName (n : DomNode) : String :=
  match n.tagName with
  | some t => jsToLower t
  | none => ""

/-- Translation of `detectComponent`. -/
def detectComponent (n : DomNode) : Option ComponentMatch :=
  let tagName := nodeTagName n
  let className := getClassString n
  let text := getTextContent n
  (firstSome (detectorList n tagName className text)).map (buildMatch n tagName className)

mutual
/-- Translation of `analyzeNode`: a non-element node returns immediately
(neither it nor its descendants are processed); an element node contributes
its match, if any, followed by its children's results in order. -/
def analyzeNode : DomNode → List ComponentMatch
  | n@(.mk nt _ _ _ _ children) =>
      if nt ≠ 1 then []
      else
        (match detectComponent n with
         | some m => [m]
         | none => []) ++ analyzeChildren children

/-- The `childNodes.forEach` recursion of `analyzeNode`. -/
def analyzeChildren : List DomNode → List ComponentMatch
  | [] => []
  | c :: cs => analyzeNode c ++ analyzeChildren cs
end

/-- Descending stable insertion: the new element goes before the first element
with a strictly smaller key (a model of the stable JS comparator sort
`(a, b) => key(b) - key(a)`). -/
def insertDesc {α β : Type} [LinearOrder β] (key : α → β) (x : α) : List α → List α
  | [] => [x]
  | y :: ys => if key y < key x then x :: y :: ys else y :: insertDesc key x ys

/-- Stable descending sort by key. -/
def sortDesc {α β : Type} [LinearOrder β] (key : α → β) : List α → List α
  | [] => []
  | x :: xs => insertDesc key x (sortDesc key xs)

/-- Insertion produces a permutation. -/
theorem insertDesc_perm {α β : Type} [LinearOrder β] (key : α → β) (x : α) :
    ∀ l : List α, (insertDesc key x l).Perm (x :: l) := by
  intro l
  induction l with
  | nil => simp [insertDesc]
  | cons y ys ih =>
      by_cases h : key y < key x
      · simp [insertDesc, h]
      · simp only [insertDesc, if_neg h]
        exact (ih.cons y).trans (List.Perm.swap x y ys)

/-- Sorting produces a permutation. -/
theorem sortDesc_perm {α β : Type} [LinearOrder β] (key : α → β) :
    ∀ l : List α, (sortDesc key l).Perm l := by
  intro l
  induction l with
  | nil => simp [sortDesc]
  | cons x xs ih =>
      exact (insertDesc_perm key x (sortDesc key xs)).trans (ih.cons x)

/-- Insertion preserves descending pairwise order. -/
theorem insertDesc_pairwise {α β : Type} [LinearOrder β] (key : α → β) (x : α) :
    ∀ l : List α, l.Pairwise (fun a b => key b ≤ key a) →
      (insertDesc key x l).Pairwise (fun a b => key b ≤ key a) := by
  intro l
  induction l with
  | nil =>
      intro _
      simp [insertDesc]
  | cons y ys ih =>
      intro hp
      rcases List.pairwise_cons.1 hp with ⟨hy, hys⟩
      by_cases h : key y < key x
      · simp only [insertDesc, if_pos h]
        refine List.pairwise_cons.2 ⟨?_, hp⟩
        intro z hz
        rcases List.mem_cons.1 hz with rfl | hz
        · exact le_of_lt h
        · exact le_trans (hy z hz) (le_of_lt h)
      · simp only [insertDesc, if_neg h]
        refine List.pairwise_cons.2 ⟨?_, ih hys⟩
        intro z hz
        have hz2 : z ∈ x :: ys := (insertDesc_perm key x ys).mem_iff.1 hz
        rcases List.mem_cons.1 hz2 with rfl | hz2
        · exact not_lt.1 h
        · exact hy z hz2

/-- The sorted list is pairwise descending in the key. -/
theorem sortDesc_pairwise {α β : Type} [LinearOrder β] (key : α → β) :
    ∀ l : List α, (sortDesc key l).Pairwise (fun a b => key b ≤ key a) := by
  intro l
  induction l with
  | nil => simp [sortDesc]
  | cons x xs ih => exact insertDesc_pairwise key x (sortDesc key xs) ih

/-- Summary block of `ComponentMapping`. -/
structure ComponentSummary where
  totalComponents : Nat
  componentTypes : List (String × Nat)
  highConfidence : List ComponentMatch
  capturedAt : String
deriving DecidableEq

/-- Result of `mapComponents`. -/
structure ComponentMapping where
  components : List ComponentMatch
  summary : ComponentSummary
deriving DecidableEq

/-- One `componentTypes[comp] = (componentTypes[comp] || 0) + 1` step. -/
def bumpCount : List (String × Nat) → String → List (String × Nat)
  | [], k => [(k, 1)]
  | (k0, v) :: rest, k =>
      if k0 == k then (k0, v + 1) :: rest else (k0, v) :: bumpCount rest k

/-- Translation of `mapComponents`: analyze from the snapshot root when
present, filter to confidence ≥ 0.3, sort by descending confidence, and build
the summary (high-confidence floor 0.6, per-label tallies, capture time). -/
def mapComponents (root : Option DomNode) (now : String) : ComponentMapping :=
  let components :=
    match root with
    | some r => analyzeNode r
    | none => []
  let filtered := sortDesc (fun c : ComponentMatch => c.confidence)
    (components.filter (fun c => c.confidence ≥ (3 : Int)))
  { components := filtered
    summary := { totalComponents := filtered.length
                 componentTypes := filtered.foldl
                   (fun acc c => bumpCount acc c.shadcnComponent) []
                 highConfidence := filtered.filter (fun c => c.confidence ≥ (6 : Int))
                 capturedAt := now } }

/-- An empty `firstSome` result means every detector returned null. -/
theorem firstSome_eq_none_iff {α : Type} :
    ∀ l : List (Option α), firstSome l = none ↔ ∀ o ∈ l, o = none := by
  intro l
  induction l with
  | nil => simp [firstSome]
  | cons o rest ih =>
      rcases o with _ | a
      · simp [firstSome, ih]
      · simp [firstSome]

/-- `firstSome` returns the value at the first non-null position. -/
theorem firstSome_eq_of_getElem {α : Type} :
    ∀ (l : List (Option α)) (i : Nat) (a : α),
      l[i]? = some (some a) → (∀ j : Nat, j < i → l[j]? = some none) →
      firstSome l = some a := by
  intro l
  induction l with
  | nil =>
      intro i a h _
      simp at h
  | cons o rest ih =>
      intro i a h hj
      cases i with
      | zero =>
          simp at h
          subst h
          simp [firstSome]
      | succ i =>
          have h0 := hj 0 (Nat.succ_pos i)
          simp at h0
          subst h0
          simp only [firstSome]
          exact ih i a (by simpa using h)
            (fun j hjlt => by simpa using hj (j + 1) (Nat.succ_lt_succ hjlt))

/-- C7 counterexample: the captured tree has an element root (`div`), whose
only child is a text node (`nodeType 3`) that itself carries a classifiable
`button` element child.  The button alone is classifiable, yet the mapper's
result is empty — `analyzeNode` returns as soon as it meets the text node and
never traverses its descendants, refuting the claim that non-element nodes are
"skipped for classification but their descendants still traversed". -/
theorem c7_counterexample_skipped_subtree :
    detectComponent (.mk 1 (some "button") [] "" "b1" []) ≠ none ∧
    analyzeNode (.mk 3 none [] "" "t1" [.mk 1 (some "button") [] "" "b1" []]) = [] ∧
    (mapComponents (some (.mk 1 (some "div") [] "" "r1"
        [.mk 3 none [] "" "t1" [.mk 1 (some "button") [] "" "b1" []]])) "now").components
      = [] := by
  refine ⟨?_, ?_, ?_⟩ <;> decide

/-- C7 (amended): component classification performs a depth-first traversal in
which only element nodes (`nodeType 1`) are candidates for classification;
a non-element node (text/comment/doctype) terminates the traversal at that
point — neither it nor any of its descendants is visited, so an element
reachable only through a non-element ancestor never appears in the results;
an element node contributes its own match, if any, followed by its children's
results in order. -/
theorem c7_element_only_traversal :
    (∀ n : DomNode, n.nodeType ≠ 1 → analyzeNode n = []) ∧
    (∀ n : DomNode, n.nodeType = 1 →
      analyzeNode n
        = (match detectComponent n with
           | some m => [m]
           | none => []) ++ analyzeChildren n.childNodes) ∧
    (∀ cs : List DomNode, analyzeChildren cs = (cs.map analyzeNode).flatten) := by
  refine ⟨?_, ?_, ?_⟩
  · intro n hn
    cases n with
    | mk nt tn attrs tx nid ch =>
        simp only [DomNode.nodeType] at hn
        simp [analyzeNode, hn]
  · intro n hn
    cases n with
    | mk nt tn attrs tx nid ch =>
        simp only [DomNode.nodeType] at hn
        subst hn
        simp [analyzeNode, DomNode.childNodes]
  · intro cs
    induction cs with
    | nil => simp [analyzeChildren]
    | cons c cs ih => simp [analyzeChildren, ih]

/-- C7 witness: a text node subtree yields nothing, by the amended theorem. -/
theorem c7_element_only_traversal_witness :
    (DomNode.mk 3 none [] "" "t1" [DomNode.mk 1 (some "button") [] "" "b1" []]).nodeType ≠ 1 ∧
    analyzeNode (.mk 3 none [] "" "t1" [.mk 1 (some "button") [] "" "b1" []]) = [] :=
  ⟨by decide, c7_element_only_traversal.1 _ (by decide)⟩

/-- C8: at most one component match per element node, decided by the first
detector in the fixed priority order (button, card, navigation, form, input,
badge, avatar, dialog, table, layout) to return a non-null candidate; once one
returns, no later detector's verdict matters; a node for which all ten return
null is omitted from the traversal's output entirely (and the final result
list only contains matches produced by visited nodes). -/
theorem c8_first_detector_wins :
    (∀ n : DomNode,
      (detectComponent n = none ↔
        ∀ o ∈ detectorList n (nodeTagName n) (getClassString n) (getTextContent n),
          o = none)) ∧
    (∀ (n : DomNode) (i : Nat) (p : PartialMatch),
      (detectorList n (nodeTagName n) (getClassString n) (getTextContent n))[i]?
        = some (some p) →
      (∀ j : Nat, j < i →
        (detectorList n (nodeTagName n) (getClassString n) (getTextContent n))[j]?
          = some none) →
      detectComponent n = some (buildMatch n (nodeTagName n) (getClassString n) p)) ∧
    (∀ n : DomNode, n.nodeType = 1 → detectComponent n = none →
      analyzeNode n = analyzeChildren n.childNodes) ∧
    (∀ n : DomNode, n.nodeType = 1 → ∀ m, detectComponent n = some m →
      analyzeNode n = m :: analyzeChildren n.childNodes) ∧
    (∀ (root : DomNode) (now : String) (m : ComponentMatch),
      m ∈ (mapComponents (some root) now).components → m ∈ analyzeNode root) := by
  refine ⟨?_, ?_, ?_, ?_, ?_⟩
  · intro n
    simp only [detectComponent, Option.map_eq_none']
    exact firstSome_eq_none_iff _
  · intro n i p h hj
    have hf := firstSome_eq_of_getElem _ i p h hj
    simp [detectComponent, hf]
  · intro n hn hdc
    cases n with
    | mk nt tn attrs tx nid ch =>
        simp only [DomNode.nodeType] at hn
        subst hn
        simp [analyzeNode, hdc, DomNode.childNodes]
  · intro n hn m hdc
    cases n with
    | mk nt tn attrs tx nid ch =>
        simp only [DomNode.nodeType] at hn
        subst hn
        simp [analyzeNode, hdc, DomNode.childNodes]
  · intro root now m hm
    simp only [mapComponents] at hm
    have hs := (sortDesc_perm (fun c : ComponentMatch => c.confidence) _).mem_iff.1 hm
    exact (List.mem_filter.1 hs).1

/-- C8 witness: for a bare `button` element the first detector already
produces the match, and the theorem determines `detectComponent`'s output. -/
theorem c8_first_detector_wins_witness :
    ((detectorList (DomNode.mk 1 (some "button") [] "" "b1" [])
        (nodeTagName (DomNode.mk 1 (some "button") [] "" "b1" []))
        (getClassString (DomNode.mk 1 (some "button") [] "" "b1" []))
        (getTextContent (DomNode.mk 1 (some "button") [] "" "b1" [])))[0]?
      = some (some { shadcnComponent := "Button (default)", confidence := 8
                     reasoning := ["HTML button element"] })) ∧
    detectComponent (DomNode.mk 1 (some "button") [] "" "b1" [])
      = some (buildMatch (DomNode.mk 1 (some "button") [] "" "b1" [])
          (nodeTagName (DomNode.mk 1 (some "button") [] "" "b1" []))
          (getClassString (DomNode.mk 1 (some "button") [] "" "b1" []))
          { shadcnComponent := "Button (default)", confidence := 8
            reasoning := ["HTML button element"] }) :=
  ⟨by decide,
    c8_first_detector_wins.2.1 (DomNode.mk 1 (some "button") [] "" "b1" []) 0
      { shadcnComponent := "Button (default)", confidence := 8
        reasoning := ["HTML button element"] }
      (by decide) (fun j hj => absurd hj (Nat.not_lt_zero j))⟩

/-- Color token of the style compiler. -/
structure ColorToken where
  name : String
  value : String
  usage : Nat
  variants : List String
deriving DecidableEq

/-- Spacing token (`pixelValue := none` models `parseInt` returning `NaN`). -/
structure SpacingToken where
  name : String
  value : String
  pixelValue : Option Int
  usage : Nat
deriving DecidableEq

/-- The composite typography key: the code keys its tally map by
`JSON.stringify` of this record, which is injective on it, so the record
itself serves as the key. -/
structure TypoKey where
  fontSize : String
  lineHeight : String
  fontWeight : String
  fontFamily : String
deriving DecidableEq

/-- Typography token. -/
structure TypographyToken where
  name : String
  fontSize : String
  lineHeight : Option String
  fontWeight : Option String
  fontFamily : Option String
  usage : Nat
deriving DecidableEq

/-- Sort the tally entries by descending usage and keep the top `k`
(`Array.from(map.entries()).sort(([,a],[,b]) => b - a).slice(0, k)`). -/
def rankSlice {κ : Type} (k : Nat) (m : List (κ × Nat)) : List (κ × Nat) :=
  (sortDesc (fun e : κ × Nat => e.2) m).take k

/-- `Array.prototype.map` with the element index. -/
def mapWithIndexFrom {α β : Type} (f : Nat → α → β) : Nat → List α → List β
  | _, [] => []
  | i, a :: as => f i a :: mapWithIndexFrom f (i + 1) as

/-- Mapping with index commutes with an index-independent projection. -/
theorem map_mapWithIndexFrom {α β γ : Type} (f : Nat → α → β) (g : β → γ) (g2 : α → γ)
    (h : ∀ i a, g (f i a) = g2 a) :
    ∀ (i : Nat) (l : List α), (mapWithIndexFrom f i l).map g = l.map g2 := by
  intro i l
  induction l generalizing i with
  | nil => rfl
  | cons a as ih => simp [mapWithIndexFrom, h, ih]

/-- Length of an indexed map. -/
theorem mapWithIndexFrom_length {α β : Type} (f : Nat → α → β) :
    ∀ (i : Nat) (l : List α), (mapWithIndexFrom f i l).length = l.length := by
  intro i l
  induction l generalizing i with
  | nil => rfl
  | cons a as ih => simp [mapWithIndexFrom, ih]

/-- First-occurrence replacement, JS `String.prototype.replace` with a string
pattern. -/
def replaceFirstL (pat rep : List Char) : List Char → List Char
  | [] => []
  | a :: as =>
      if lstartsWith (a :: as) pat && !pat.isEmpty then rep ++ (a :: as).drop pat.length
      else a :: replaceFirstL pat rep as

/-- JS `s.replace(pat, rep)` for plain string patterns. -/
def jsReplaceFirst (s pat rep : String) : String :=
  String.mk (replaceFirstL pat.data rep.data s.data)

/-- Translation of `generateColorName`. -/
def generateColorName (color : String) (index : Nat) : String :=
  if strContains color "black" || color == "#000000" || color == "#000" then "black"
  else if strContains color "white" || color == "#ffffff" || color == "#fff" then "white"
  else if strContains color "gray" || strContains color "grey" then
    "gray-" ++ toString (index + 1)
  else if strContains color "blue" then "blue-" ++ toString (index + 1)
  else if strContains color "red" then "red-" ++ toString (index + 1)
  else if strContains color "green" then "green-" ++ toString (index + 1)
  else "color-" ++ toString (index + 1)

/-- The fixed pixel-to-Tailwind-scale table of `generateSpacingName`. -/
def tailwindScale (px : Int) : Option String :=
  match px with
  | 0 => some "0"
  | 1 => some "0.25"
  | 2 => some "0.5"
  | 3 => some "0.75"
  | 4 => some "1"
  | 5 => some "1.25"
  | 6 => some "1.5"
  | 8 => some "2"
  | 10 => some "2.5"
  | 12 => some "3"
  | 16 => some "4"
  | 20 => some "5"
  | 24 => some "6"
  | 32 => some "8"
  | 40 => some "10"
  | 48 => some "12"
  | 64 => some "16"
  | _ => none

/-- Translation of `generateSpacingName` (every scale entry is a truthy
string, so a table hit is returned as-is). -/
def generateSpacingName (spacing : String) (index : Nat) : String :=
  match parseIntJS (jsReplaceFirst spacing "px" "") with
  | some px =>
      match tailwindScale px with
      | some name => name
      | none => "spacing-" ++ toString (index + 1)
  | none => "spacing-" ++ toString (index + 1)

/-- Translation of `generateTypographyName` (`NaN` fails every `<=` test and
falls through to the positional fallback). -/
def generateTypographyName (fontSize : String) (index : Nat) : String :=
  match parseIntJS (jsReplaceFirst fontSize "px" "") with
  | some fs =>
      if fs ≤ 12 then "xs"
      else if fs ≤ 14 then "sm"
      else if fs ≤ 16 then "base"
      else if fs ≤ 18 then "lg"
      else if fs ≤ 20 then "xl"
      else if fs ≤ 24 then "2xl"
      else if fs ≤ 30 then "3xl"
      else if fs ≤ 36 then "4xl"
      else if fs ≤ 48 then "5xl"
      else "text-" ++ toString (index + 1)
  | none => "text-" ++ toString (index + 1)

/-- Value of one hexadecimal digit. -/
def hexDigitVal (c : Char) : Option Nat :=
  if '0' ≤ c ∧ c ≤ '9' then some (c.toNat - 48)
  else if 'a' ≤ c ∧ c ≤ 'f' then some (c.toNat - 97 + 10)
  else if 'A' ≤ c ∧ c ≤ 'F' then some (c.toNat - 65 + 10)
  else none

/-- `parseInt(two-char-slice, 16)`: parses the leading hex digits, `none`
models `NaN`. -/
def parseHex2 (a b : Char) : Option Nat :=
  match hexDigitVal a with
  | none => none
  | some x =>
      match hexDigitVal b with
      | some y => some (16 * x + y)
      | none => some x

/-- `v.toString(16).padStart(2, "0")`. -/
def hex2 (v : Nat) : String :=
  let s := String.mk (Nat.toDigits 16 v)
  if s.length < 2 then "0" ++ s else s

/-- `Math.min(255, Math.round(v + (255 - v) * 0.3))` in exact integer
arithmetic (round half up on a positive value). -/
def lighterChannel : Option Nat → Option Nat
  | some v => some (min 255 ((10 * v + 3 * (255 - v) + 5) / 10))
  | none => none

/-- `Math.max(0, Math.round(v * 0.7))`. -/
def darkerChannel : Option Nat → Option Nat
  | some v => some ((7 * v + 5) / 10)
  | none => none

/-- Rendering of one channel; `(NaN).toString(16)` is the string `"NaN"`,
which `padStart(2)` leaves alone. -/
def chanStr : Option Nat → String
  | some v => hex2 v
  | none => "NaN"

/-- Translation of `generateColorVariants` (only 7-character `#rrggbb` values
get a lighter and a darker variant). -/
def generateColorVariants (color : String) : List String :=
  if strStartsWith color "#" && color.length == 7 then
    match color.data with
    | _ :: r1 :: r2 :: g1 :: g2 :: b1 :: b2 :: [] =>
        let r := parseHex2 r1 r2
        let g := parseHex2 g1 g2
        let b := parseHex2 b1 b2
        ["#" ++ chanStr (lighterChannel r) ++ chanStr (lighterChannel g)
            ++ chanStr (lighterChannel b),
         "#" ++ chanStr (darkerChannel r) ++ chanStr (darkerChannel g)
            ++ chanStr (darkerChannel b)]
    | _ => []
  else []

/-- Translation of `generateColorTokens` over the tally map (the `colorMap`
state is passed explicitly; a JS `Map` has distinct keys). -/
def generateColorTokens (colorMap : List (String × Nat)) : List ColorToken :=
  mapWithIndexFrom
    (fun index e =>
      { name := generateColorName e.1 index, value := e.1, usage := e.2
        variants := generateColorVariants e.1 })
    0 (rankSlice 20 colorMap)

/-- Translation of `generateSpacingTokens`. -/
def generateSpacingTokens (spacingMap : List (String × Nat)) : List SpacingToken :=
  mapWithIndexFrom
    (fun index e =>
      { name := generateSpacingName e.1 index, value := e.1
        pixelValue := parseIntJS (jsReplaceFirst e.1 "px" ""), usage := e.2 })
    0 (rankSlice 15 spacingMap)

/-- Translation of `generateTypographyTokens` (`JSON.parse` of the stringified
key recovers the `TypoKey` record). -/
def generateTypographyTokens (typoMap : List (TypoKey × Nat)) : List TypographyToken :=
  mapWithIndexFrom
    (fun index e =>
      { name := generateTypographyName e.1.fontSize index
        fontSize := e.1.fontSize
        lineHeight := if e.1.lineHeight ≠ "normal" then some e.1.lineHeight else none
        fontWeight := if e.1.fontWeight ≠ "normal" then some e.1.fontWeight else none
        fontFamily := if e.1.fontFamily ≠ "inherit" then some e.1.fontFamily else none
        usage := e.2 })
    0 (rankSlice 10 typoMap)

/-- In a ranked slice, a tallied entry with strictly greater usage occupies an
earlier position than any entry it outranks. -/
theorem rankSlice_count_mono {κ : Type} [DecidableEq κ] (k : Nat) (m : List (κ × Nat))
    (x y : κ) (nx ny : Nat) (hx : (x, nx) ∈ m) (hgt : ny < nx) :
    ∀ j (hj : j < (rankSlice k m).length),
      (rankSlice k m).get ⟨j, hj⟩ = (y, ny) →
      ∃ i, ∃ hi : i < (rankSlice k m).length, i < j ∧
        (rankSlice k m).get ⟨i, hi⟩ = (x, nx) := by
  intro j hj hyj
  have hperm := sortDesc_perm (fun e : κ × Nat => e.2) m
  have hpw := sortDesc_pairwise (fun e : κ × Nat => e.2) m
  obtain ⟨ix, hxi⟩ :=
    List.mem_iff_get.1 (hperm.mem_iff.2 hx)
  have hjlt : j < (sortDesc (fun e : κ × Nat => e.2) m).length := by
    have := hj
    simp only [rankSlice, List.length_take] at this
    omega
  have hget : (rankSlice k m).get ⟨j, hj⟩
      = (sortDesc (fun e : κ × Nat => e.2) m).get ⟨j, hjlt⟩ := by
    simp [rankSlice, List.get_take]
  have hyj2 : (sortDesc (fun e : κ × Nat => e.2) m).get ⟨j, hjlt⟩ = (y, ny) := by
    rw [← hget, hyj]
  have hixj : (ix : Nat) < j := by
    by_contra hge
    push_neg at hge
    rcases Nat.lt_or_ge j ix with hlt | hge2
    · have := (List.pairwise_iff_get.1 hpw) ⟨j, hjlt⟩ ix hlt
      rw [hxi, hyj2] at this
      simp at this
      omega
    · have : (ix : Nat) = j := by omega
      have heq : (x, nx) = (y, ny) := by
        rw [← hxi, ← hyj2]
        congr 1
        exact Fin.ext this
      have : nx = ny := congrArg Prod.snd heq
      omega
  have hik : (ix : Nat) < (rankSlice k m).length := by
    simp only [rankSlice, List.length_take] at hj ⊢
    omega
  refine ⟨ix, hik, hixj, ?_⟩
  have : (rankSlice k m).get ⟨ix, hik⟩
      = (sortDesc (fun e : κ × Nat => e.2) m).get ⟨ix, ix.isLt⟩ := by
    simp [rankSlice, List.get_take]
  rw [this]
  rw [show (⟨(ix : Nat), ix.isLt⟩ : Fin _) = ix from Fin.ext rfl]
  exact hxi

/-- C9: style token ranking is count-monotonic within each category — colors
keep the top 20, spacing the top 15, typography the top 10 by descending
usage; the emitted token lists correspond position-by-position to the ranked
tally slices, each list is pairwise descending in usage, and a tallied value
with strictly higher usage count than another appears at a strictly earlier
index of its category's ranked slice. -/
theorem c9_token_ranking
    (colorMap spacingMap : List (String × Nat)) (typoMap : List (TypoKey × Nat)) :
    (generateColorTokens colorMap).length ≤ 20 ∧
    (generateSpacingTokens spacingMap).length ≤ 15 ∧
    (generateTypographyTokens typoMap).length ≤ 10 ∧
    (generateColorTokens colorMap).map (fun t => (t.value, t.usage))
      = rankSlice 20 colorMap ∧
    (generateSpacingTokens spacingMap).map (fun t => (t.value, t.usage))
      = rankSlice 15 spacingMap ∧
    (generateTypographyTokens typoMap).map (fun t => t.usage)
      = (rankSlice 10 typoMap).map Prod.snd ∧
    (generateColorTokens colorMap).Pairwise (fun a b => b.usage ≤ a.usage) ∧
    (generateSpacingTokens spacingMap).Pairwise (fun a b => b.usage ≤ a.usage) ∧
    (generateTypographyTokens typoMap).Pairwise (fun a b => b.usage ≤ a.usage) ∧
    (∀ (x y : String) (nx ny : Nat), (x, nx) ∈ colorMap → ny < nx →
      ∀ j, ∀ hj : j < (rankSlice 20 colorMap).length,
        (rankSlice 20 colorMap).get ⟨j, hj⟩ = (y, ny) →
        ∃ i, ∃ hi : i < (rankSlice 20 colorMap).length, i < j ∧
          (rankSlice 20 colorMap).get ⟨i, hi⟩ = (x, nx)) ∧
    (∀ (x y : String) (nx ny : Nat), (x, nx) ∈ spacingMap → ny < nx →
      ∀ j, ∀ hj : j < (rankSlice 15 spacingMap).length,
        (rankSlice 15 spacingMap).get ⟨j, hj⟩ = (y, ny) →
        ∃ i, ∃ hi : i < (rankSlice 15 spacingMap).length, i < j ∧
          (rankSlice 15 spacingMap).get ⟨i, hi⟩ = (x, nx)) ∧
    (∀ (x y : TypoKey) (nx ny : Nat), (x, nx) ∈ typoMap → ny < nx →
      ∀ j, ∀ hj : j < (rankSlice 10 typoMap).length,
        (rankSlice 10 typoMap).get ⟨j, hj⟩ = (y, ny) →
        ∃ i, ∃ hi : i < (rankSlice 10 typoMap).length, i < j ∧
          (rankSlice 10 typoMap).get ⟨i, hi⟩ = (x, nx)) := by
  have hlc : (generateColorTokens colorMap).length = (rankSlice 20 colorMap).length :=
    mapWithIndexFrom_length _ 0 _
  have hls : (generateSpacingTokens spacingMap).length = (rankSlice 15 spacingMap).length :=
    mapWithIndexFrom_length _ 0 _
  have hlt : (generateTypographyTokens typoMap).length = (rankSlice 10 typoMap).length :=
    mapWithIndexFrom_length _ 0 _
  have hcorrc : (generateColorTokens colorMap).map (fun t => (t.value, t.usage))
      = rankSlice 20 colorMap :=
    (map_mapWithIndexFrom
      (fun index (e : String × Nat) =>
        ({ name := generateColorName e.1 index, value := e.1, usage := e.2
           variants := generateColorVariants e.1 } : ColorToken))
      (fun t => (t.value, t.usage)) id (fun _ _ => rfl)
      0 (rankSlice 20 colorMap)).trans (List.map_id _)
  have hcorrs : (generateSpacingTokens spacingMap).map (fun t => (t.value, t.usage))
      = rankSlice 15 spacingMap :=
    (map_mapWithIndexFrom
      (fun index (e : String × Nat) =>
        ({ name := generateSpacingName e.1 index, value := e.1
           pixelValue := parseIntJS (jsReplaceFirst e.1 "px" "")
           usage := e.2 } : SpacingToken))
      (fun t => (t.value, t.usage)) id (fun _ _ => rfl)
      0 (rankSlice 15 spacingMap)).trans (List.map_id _)
  have hcorrt : (generateTypographyTokens typoMap).map (fun t => t.usage)
      = (rankSlice 10 typoMap).map Prod.snd :=
    map_mapWithIndexFrom
      (fun index (e : TypoKey × Nat) =>
        ({ name := generateTypographyName e.1.fontSize index
           fontSize := e.1.fontSize
           lineHeight := if e.1.lineHeight ≠ "normal" then some e.1.lineHeight else none
           fontWeight := if e.1.fontWeight ≠ "normal" then some e.1.fontWeight else none
           fontFamily := if e.1.fontFamily ≠ "inherit" then some e.1.fontFamily else none
           usage := e.2 } : TypographyToken))
      (fun t => t.usage) Prod.snd (fun _ _ => rfl)
      0 (rankSlice 10 typoMap)
  have hpwc : (rankSlice 20 colorMap).Pairwise (fun a b => b.2 ≤ a.2) :=
    List.Pairwise.sublist (List.take_sublist _ _) (sortDesc_pairwise _ _)
  have hpws : (rankSlice 15 spacingMap).Pairwise (fun a b => b.2 ≤ a.2) :=
    List.Pairwise.sublist (List.take_sublist _ _) (sortDesc_pairwise _ _)
  have hpwt : (rankSlice 10 typoMap).Pairwise (fun a b => b.2 ≤ a.2) :=
    List.Pairwise.sublist (List.take_sublist _ _) (sortDesc_pairwise _ _)
  refine ⟨?_, ?_, ?_, hcorrc, hcorrs, hcorrt, ?_, ?_, ?_, ?_, ?_, ?_⟩
  · rw [hlc]
    simpa [rankSlice] using Nat.min_le_left 20 _
  · rw [hls]
    simpa [rankSlice] using Nat.min_le_left 15 _
  · rw [hlt]
    simpa [rankSlice] using Nat.min_le_left 10 _
  · have := hpwc
    rw [← hcorrc] at this
    exact List.pairwise_map.1 this
  · have := hpws
    rw [← hcorrs] at this
    exact List.pairwise_map.1 this
  · have h1 : ((rankSlice 10 typoMap).map Prod.snd).Pairwise (fun a b => b ≤ a) :=
      List.pairwise_map.2 hpwt
    rw [← hcorrt] at h1
    exact List.pairwise_map.1 h1
  · intro x y nx ny hx hgt j hj hyj
    exact rankSlice_count_mono 20 colorMap x y nx ny hx hgt j hj hyj
  · intro x y nx ny hx hgt j hj hyj
    exact rankSlice_count_mono 15 spacingMap x y nx ny hx hgt j hj hyj
  · intro x y nx ny hx hgt j hj hyj
    exact rankSlice_count_mono 10 typoMap x y nx ny hx hgt j hj hyj

/-- C9 witness: in a tally where "blue" has usage 10 and "red" usage 3, the
ranked color slice places "blue" strictly before "red". -/
theorem c9_token_ranking_witness :
    ∃ i, ∃ hi : i < (rankSlice 20 [("red", 3), ("blue", 10)]).length, i < 1 ∧
      (rankSlice 20 [("red", 3), ("blue", 10)]).get ⟨i, hi⟩ = ("blue", 10) :=
  (c9_token_ranking [("red", 3), ("blue", 10)] [] []).2.2.2.2.2.2.2.2.2.1
    "blue" "red" 10 3 (by decide) (by decide) 1 (by decide) (by decide)

end CloneSpec
